import Mathlib

/-!
Verification of the cgmemtime harness (src/src/main.rs) against its
natural-language specification.

The program is embedded shallowly: every syscall outcome is a field of an
`Env` record, every observable side effect (directory creation/removal,
controller-enable write, process creation, child exit, reporting) is an
`Event`, and each Rust function of the source becomes a Lean function
that threads the `Args` state and returns the list of events it emits
together with either a result or an `Abort` (a Rust panic, a call to
`exit`, or a successful `exec` that replaces the process image).
Rust `panic!`/`expect` unwinds and runs `Drop for Args`; `exit` does not
run destructors; a successful `exec` replaces the image and also runs no
destructors.  `runMain` composes the phases exactly as `fn main` does.
-/

namespace Cgmemtime

/-- Substring search on character lists: index of the first occurrence of
`needle` in the list, mirroring Rust `str::find`. -/
def findSub (needle : List Char) : List Char → Option Nat
  | [] => if needle = [] then some 0 else none
  | c :: rest =>
    if needle.isPrefixOf (c :: rest) then some 0
    else (findSub needle rest).map Nat.succ

/-- Boolean substring containment, mirroring `str::find(..).is_some()`. -/
def strContains (hay needle : String) : Bool :=
  (findSub needle.toList hay.toList).isSome

/-- First `n` characters of a string, mirroring the bounded `take(n)` reads. -/
def strTake (s : String) (n : Nat) : String :=
  String.mk (s.toList.take n)

/-- Whitespace trimming, mirroring Rust `str::trim`. -/
def strTrim (s : String) : String :=
  String.mk (((s.toList.dropWhile Char.isWhitespace).reverse.dropWhile
    Char.isWhitespace).reverse)

/-- Value of a pure digit string, `none` if any character is not a digit. -/
def digitsVal (l : List Char) : Option Nat :=
  l.foldl (fun acc c => match acc with
    | none => none
    | some n => if c.isDigit then some (n * 10 + (c.toNat - 48)) else none)
    (some 0)

/-- Parse a decimal `i64`, mirroring Rust `str::parse::<i64>` (optional
leading minus sign, digits only, in-range for 64-bit signed). -/
def parseI64 (s : String) : Option Int :=
  let core : Option Int :=
    match s.toList with
    | [] => none
    | c :: rest =>
      if c = '-' then
        match rest with
        | [] => none
        | _ => (digitsVal rest).map (fun n => -(n : Int))
      else (digitsVal (c :: rest)).map (fun n => (n : Int))
  match core with
  | none => none
  | some v => if -(2 ^ 63) ≤ v ∧ v ≤ 2 ^ 63 - 1 then some v else none

/-- Observable side effects of a run, in temporal order. -/
inductive Event where
  /-- A directory was created (the ephemeral target dir or the leaf). -/
  | createDir (path : String) : Event
  /-- The string "+memory" was written to the given subtree-control file. -/
  | writeSubtreeControl (path : String) : Event
  /-- clone3 succeeded: the child process now exists inside the leaf. -/
  | spawnChild : Event
  /-- The child terminated with the given status. -/
  | childExit (code : Int) : Event
  /-- wait4 on the child returned. -/
  | waitChild : Event
  /-- Removal of the given directory was attempted, with the given result. -/
  | removeDir (path : String) (ok : Bool) : Event
  /-- A cleanup failure for the given directory was reported on stderr. -/
  | reportCleanupFailure (path : String) : Event
  /-- The metrics summary was printed on stdout. -/
  | printResult : Event
  deriving DecidableEq

/-- How control left a phase abnormally. -/
inductive Abort where
  /-- A Rust panic (every `expect`/`panic!`/`assert!`/`unwrap` in the
  source); unwinding runs `Drop for Args`, the process then exits 101. -/
  | panicked (msg : String) : Abort
  /-- `std::process::exit(code)`: immediate exit, no destructors. -/
  | exited (code : Nat) : Abort
  /-- A successful `exec`: the image is replaced, no destructors run. -/
  | delegated : Abort
  deriving DecidableEq

/-- The `Result` struct of the source; `Duration` values are carried in
nanoseconds, which is the exact precision of `std::time::Duration`. -/
structure Metrics where
  child_user_ns : Nat
  child_sys_ns : Nat
  child_wall_ns : Nat
  child_rss_highwater : Int
  cg_rss_highwater : Int
  deriving DecidableEq

/-- Final fate of the measuring (parent) process. -/
inductive Outcome where
  /-- Metrics printed; `main` returns, the process exits with status 0. -/
  | success (m : Metrics) : Outcome
  /-- `exit(code)` was called. -/
  | exited (code : Nat) : Outcome
  /-- A panic: the message is reported and the process exits with 101. -/
  | panicked (msg : String) : Outcome
  /-- The image was replaced by a successful re-exec through systemd-run. -/
  | delegated : Outcome
  deriving DecidableEq

/-- Numeric exit status of the measuring process, `none` when the image
was replaced by exec. -/
def exitCodeOf : Outcome → Option Nat
  | .success _ => some 0
  | .exited n => some n
  | .panicked _ => some 101
  | .delegated => none

/-- The `Args` struct of the source (clap-parsed options plus the two
`#[arg(skip)]` fields, which clap initializes to `None`). -/
structure Args where
  cg_fs_dir : String
  cg_dir : Option String
  temp_cg_dir : Option String
  leaf_dir : Option String
  machine_readable : Bool
  delim : Char
  disable_systemd_run : Bool
  command : List String

/-- Outcomes of every external operation the program performs.  `readFile`
models open-plus-read (`none` = unreadable); the `..Ok` booleans model
success of the corresponding syscall; the rusage fields are what `wait4`
reports; `childStatus` is the exit status of the target command. -/
structure Env where
  readFile : String → Option String
  metaExists : String → Bool
  metaIsDir : String → Bool
  tempdirOk : Bool
  tempdirSuffix : String
  systemdExecOk : Bool
  readDirOk : String → Bool
  createDirOk : String → Bool
  openWriteOk : String → Bool
  writeOk : Bool
  flushOk : Bool
  openDirFdOk : String → Bool
  cloneOk : Bool
  execOk : Bool
  sigIntOk : Bool
  sigQuitOk : Bool
  waitOk : Bool
  clockOk : Bool
  childStatus : Int
  utimeSec : Nat
  utimeUsec : Nat
  stimeSec : Nat
  stimeUsec : Nat
  maxrss : Int
  wallNs : Nat
  removeDirOk : String → Bool

/-- The `u8` NUL byte as a one-character string, for the pattern
`"memory\0"` of the source. -/
def memNul : String := String.mk ['m', 'e', 'm', 'o', 'r', 'y', Char.ofNat 0]

/-- The substring test of `check_cgroupfs`:
`buf.find("memory ").or(buf.find("memory\0"))`. -/
def memListed (buf : String) : Bool :=
  strContains buf "memory " || strContains buf memNul

/-- One removal attempt of `Drop for Args`: `fs::remove_dir`, and on
failure a report on stderr. -/
def removalChunk (env : Env) (d : String) : List Event :=
  if env.removeDirOk d then [Event.removeDir d true]
  else [Event.removeDir d false, Event.reportCleanupFailure d]

/-- Source `Drop for Args` (lines 251-264): attempt to remove the leaf
directory if one was recorded, then the ephemeral target directory if one
was recorded; a failed removal is only reported on stderr. -/
def dropArgs (env : Env) (a : Args) : List Event :=
  (match a.leaf_dir with
   | some l => removalChunk env l
   | none => []) ++
  (match a.temp_cg_dir with
   | some t => removalChunk env t
   | none => [])

/-- Events of an abnormal end of the run: a panic unwinds and runs
`Drop for Args` on the current state; `exit` and a successful exec do not. -/
def abortEvents (env : Env) (ab : Abort × Args) : List Event :=
  match ab.1 with
  | .panicked _ => dropArgs env ab.2
  | _ => []

/-- Outcome of the run that an `Abort` produces. -/
def abortOutcome : Abort → Outcome
  | .panicked m => .panicked m
  | .exited n => .exited n
  | .delegated => .delegated

/-- Source `Args::check_cgroupfs` (lines 58-76): for each of
`cgroup.controllers` and `cgroup.subtree_control` under the mount, read at
most 1024 bytes and require the substring "memory " or "memory\0";
any failure is an `expect` panic.  No events are emitted. -/
def check_cgroupfs (env : Env) (a : Args) :
    List Event × Except (Abort × Args) Args :=
  let f1 := a.cg_fs_dir ++ "/cgroup.controllers"
  let f2 := a.cg_fs_dir ++ "/cgroup.subtree_control"
  match env.readFile f1 with
  | none => ([], .error (.panicked ("Cannot open file: " ++ f1), a))
  | some c1 =>
    if memListed (strTake c1 1024) then
      match env.readFile f2 with
      | none => ([], .error (.panicked ("Cannot open file: " ++ f2), a))
      | some c2 =>
        if memListed (strTake c2 1024) then ([], .ok a)
        else ([], .error (.panicked ("Cgroup memory controller missing: " ++ f2), a))
    else ([], .error (.panicked ("Cgroup memory controller missing: " ++ f1), a))

/-- Source `Args::reexec_with_systemd_run` (lines 118-137): with `-Z` set,
print a diagnostic and `exit(119)`; otherwise exec systemd-run forwarding
the original arguments plus `-Z` (replacing the image on success), and if
the exec itself fails, `exit(118)`. -/
def reexec_with_systemd_run (env : Env) (a : Args) : Abort :=
  if a.disable_systemd_run then .exited 119
  else if env.systemdExecOk then .delegated
  else .exited 118

/-- Source `Args::check_cgroup_dir` (lines 78-116).  With `-c`: the path
must exist and be a directory (panic otherwise), nothing is created.
Without `-c`: read at most 1024 bytes of /proc/self/cgroup, locate the
first "/" (panic if absent) and the pattern ".service"; if found, create
a uniquely suffixed "cgmt-" tempdir inside the derived session-scope path
and record it; otherwise fall back to `reexec_with_systemd_run`. -/
def check_cgroup_dir (env : Env) (a : Args) :
    List Event × Except (Abort × Args) Args :=
  match a.cg_dir with
  | some cg_dir =>
    if env.metaExists cg_dir then
      if env.metaIsDir cg_dir then ([], .ok a)
      else ([], .error (.panicked ("Path " ++ cg_dir ++ " is not a directory."), a))
    else ([], .error (.panicked ("Directory " ++ cg_dir ++ " does not exist."), a))
  | none =>
    match env.readFile "/proc/self/cgroup" with
    | none => ([], .error (.panicked "Cannot open /proc/self/cgroup", a))
    | some c =>
      let buf := strTake c 1024
      match findSub ['/'] buf.toList with
      | none => ([], .error (.panicked "Cgroup does not contain a slash", a))
      | some slashIdx =>
        let s_pos := slashIdx + 1
        match findSub ".service".toList buf.toList with
        | some e_pos =>
          if s_pos ≤ e_pos + 8 then
            let p_dir := String.mk ((buf.toList.drop s_pos).take (e_pos + 8 - s_pos))
            if env.tempdirOk then
              let tmp := a.cg_fs_dir ++ "/" ++ p_dir ++ "/cgmt-" ++ env.tempdirSuffix
              ([Event.createDir tmp], .ok { a with temp_cg_dir := some tmp })
            else ([], .error (.panicked "Cannot create tempdir", a))
          else ([], .error (.panicked "unwrap on None slice", a))
        | none => ([], .error (reexec_with_systemd_run env a, a))

/-- Body of `Args::setup_cgroup` once the target directory is chosen:
open it, create the nested `leaf` directory (recording it in `leaf_dir`),
then open the target's `cgroup.subtree_control`, write "+memory" and
flush; each step panics on failure. -/
def setup_cgroup_in (env : Env) (a : Args) (cg : String) :
    List Event × Except (Abort × Args) Args :=
  if env.readDirOk cg then
    let leaf := cg ++ "/leaf"
    if env.createDirOk leaf then
      let a1 := { a with leaf_dir := some leaf }
      let ctl := cg ++ "/cgroup.subtree_control"
      if env.openWriteOk ctl then
        if env.writeOk then
          if env.flushOk then
            ([Event.createDir leaf, Event.writeSubtreeControl ctl], .ok a1)
          else
            ([Event.createDir leaf, Event.writeSubtreeControl ctl],
             .error (.panicked ("Flush to file " ++ ctl ++ " failed"), a1))
        else ([Event.createDir leaf],
              .error (.panicked ("Write to file " ++ ctl ++ " failed"), a1))
      else ([Event.createDir leaf],
            .error (.panicked ("Cannot open file " ++ ctl), a1))
    else ([], .error (.panicked ("Cannot make directory " ++ leaf), a))
  else ([], .error (.panicked ("Cannot open directory " ++ cg), a))

/-- Source `Args::setup_cgroup` (lines 139-168): the target is the
recorded ephemeral directory if present, else the explicit `-c` directory,
else a panic; then provision via `setup_cgroup_in`. -/
def setup_cgroup (env : Env) (a : Args) :
    List Event × Except (Abort × Args) Args :=
  match a.temp_cg_dir with
  | some t => setup_cgroup_in env a t
  | none =>
    match a.cg_dir with
    | some d => setup_cgroup_in env a d
    | none => ([], .error (.panicked "Miss cgroup directory", a))

/-- Source `Args::execute` (lines 170-248).  Open a directory fd on the
leaf, clone3 straight into it.  The child execs the target command; on
exec failure it reports the error and calls `exit(127)`; with an empty
command list the `assert!` panics, unwinding runs `Drop` in the child and
the child exits 101.  The parent ignores SIGINT/SIGQUIT, waits (wait4),
converts the rusage values (`Duration::from_secs` of tv_sec plus
`Duration::from_nanos` of tv_usec, `ru_maxrss * 1024`), takes the wall
clock, reads at most 21 bytes of the leaf's memory.peak and parses it as
i64; `self` is dropped at the end of the function, before `main` prints.

The child side of the clone is `childEvents`: with an empty command list
the `assert!` panics, unwinding runs `Drop` in the child, and the child
exits with 101; otherwise the child execs the command (its eventual exit
is the status of the command) or, if the exec fails, reports the error
and calls `exit(127)`. -/
def childEvents (env : Env) (a : Args) : List Event :=
  match a.command with
  | [] => dropArgs env a ++ [Event.childExit 101]
  | _ :: _ =>
    if env.execOk then [Event.childExit env.childStatus]
    else [Event.childExit 127]

/-- Body of `Args::execute` once the leaf directory is known. -/
def execute_in (env : Env) (a : Args) (leaf : String) :
    List Event × Except (Abort × Args) Metrics :=
  if env.openDirFdOk leaf then
    if env.cloneOk then
      if env.sigIntOk then
        if env.sigQuitOk then
          if env.waitOk then
            if env.clockOk then
              match env.readFile (leaf ++ "/memory.peak") with
              | none =>
                (Event.spawnChild :: childEvents env a ++ [Event.waitChild],
                 .error (.panicked
                  "Cannot open memory.peak (requires Kernel 5.19 or later)", a))
              | some content =>
                match parseI64 (strTrim (strTake content 21)) with
                | none =>
                  (Event.spawnChild :: childEvents env a ++ [Event.waitChild],
                   .error (.panicked "memory.peak parse failed", a))
                | some v =>
                  (Event.spawnChild :: childEvents env a ++ [Event.waitChild]
                     ++ dropArgs env a,
                   .ok { child_user_ns := env.utimeSec * 1000000000 + env.utimeUsec
                         child_sys_ns := env.stimeSec * 1000000000 + env.stimeUsec
                         child_wall_ns := env.wallNs
                         child_rss_highwater := env.maxrss * 1024
                         cg_rss_highwater := v })
            else (Event.spawnChild :: childEvents env a ++ [Event.waitChild],
                  .error (.panicked "duration since failed", a))
          else (Event.spawnChild :: childEvents env a,
                .error (.panicked "waitid failed", a))
        else (Event.spawnChild :: childEvents env a,
              .error (.panicked "failed to ignore SIGQUIT", a))
      else (Event.spawnChild :: childEvents env a,
            .error (.panicked "Failed to ignore SIGINT", a))
    else ([], .error (.panicked "clone3 failed", a))
  else ([], .error (.panicked "fcntl open failed", a))

/-- Dispatch of `Args::execute` on the recorded leaf directory
(`self.leaf_dir.as_ref().unwrap()`). -/
def execute (env : Env) (a : Args) :
    List Event × Except (Abort × Args) Metrics :=
  match a.leaf_dir with
  | none => ([], .error (.panicked "unwrap on None leaf_dir", a))
  | some leaf => execute_in env a leaf

/-- Last step of `fn main`: run `Args::execute` (which consumes and so
drops `self`) after the events `pre` have already happened, then print
the summary. -/
def runExec (env : Env) (pre : List Event) (a3 : Args) : List Event × Outcome :=
  match execute env a3 with
  | (ev4, .error ab) => (pre ++ ev4 ++ abortEvents env ab, abortOutcome ab.1)
  | (ev4, .ok m) => (pre ++ ev4 ++ [Event.printResult], Outcome.success m)

/-- Run `Args::setup_cgroup` and continue with `runExec`. -/
def runSetup (env : Env) (pre : List Event) (a2 : Args) : List Event × Outcome :=
  match setup_cgroup env a2 with
  | (ev3, .error ab) => (pre ++ ev3 ++ abortEvents env ab, abortOutcome ab.1)
  | (ev3, .ok a3) => runExec env (pre ++ ev3) a3

/-- Run `Args::check_cgroup_dir` and continue with `runSetup`. -/
def runLocate (env : Env) (pre : List Event) (a1 : Args) : List Event × Outcome :=
  match check_cgroup_dir env a1 with
  | (ev2, .error ab) => (pre ++ ev2 ++ abortEvents env ab, abortOutcome ab.1)
  | (ev2, .ok a2) => runSetup env (pre ++ ev2) a2

/-- Source `fn main` (lines 281-286): the four phases in order, then the
printed summary.  A panic anywhere unwinds (running `Drop for Args` on the
current state); `exit` and a successful exec end the process immediately. -/
def runMain (env : Env) (a : Args) : List Event × Outcome :=
  match check_cgroupfs env a with
  | (ev, .error ab) => (ev ++ abortEvents env ab, abortOutcome ab.1)
  | (ev, .ok a1) => runLocate env ev a1

/-- Strict temporal precedence in a trace: some occurrence of the first
event is followed, strictly later, by some occurrence of the second. -/
def occursBefore (tr : List Event) (e₁ e₂ : Event) : Bool :=
  match tr with
  | [] => false
  | e :: rest =>
    (decide (e = e₁) && rest.any (fun x => decide (x = e₂))) || occursBefore rest e₁ e₂

/-- Number of removal attempts recorded for a given directory. -/
def countRemoveAttempts (tr : List Event) (p : String) : Nat :=
  tr.countP (fun ev => match ev with
    | Event.removeDir q _ => decide (q = p)
    | _ => false)

/-- Modelled from the spec words for claim C5: a controllers listing
"lists the memory controller" when "memory" occurs as a whitespace-separated
token of the file contents. -/
def wsTokens (l : List Char) : List (List Char) :=
  l.foldr (fun c acc =>
    if c.isWhitespace then [] :: acc
    else match acc with
      | [] => [[c]]
      | t :: ts => (c :: t) :: ts) []

/-- Modelled from the spec words for claim C5 ("does not list the memory
controller"): token-level membership of "memory" in the file contents. -/
def listsMemoryToken (s : String) : Bool :=
  (wsTokens s.toList).any (fun t => decide (t = "memory".toList))

/-- Readability-plus-listing test for one controller file, as the code
performs it (bounded to the first 1024 bytes). -/
def fileListsMemory (env : Env) (file : String) : Bool :=
  match env.readFile file with
  | none => false
  | some c => memListed (strTake c 1024)

/-! ### Basic facts about strings, cleanup and traces -/

theorem append_ne_self (t s : String) (h : s ≠ "") : t ++ s ≠ t := by
  intro he
  have hlen : (t ++ s).length = t.length := by rw [he]
  rw [String.length_append] at hlen
  have hs : s.length = 0 := by omega
  cases s with
  | mk data =>
    simp [String.length] at hs
    simp [hs] at h

theorem dropArgs_nil (env : Env) (a : Args) (hl : a.leaf_dir = none)
    (ht : a.temp_cg_dir = none) : dropArgs env a = [] := by
  simp [dropArgs, hl, ht]

theorem mem_removalChunk_shape (env : Env) (d : String) (e : Event)
    (h : e ∈ removalChunk env d) :
    (∃ b, e = Event.removeDir d b) ∨ e = Event.reportCleanupFailure d := by
  unfold removalChunk at h
  split_ifs at h <;> simp_all
  rcases h with h | h
  · exact Or.inl (Or.inl h)
  · exact Or.inr h

theorem removeDir_mem_removalChunk (env : Env) (d p : String) (b : Bool) :
    Event.removeDir p b ∈ removalChunk env d ↔
      (p = d ∧ b = env.removeDirOk d) := by
  unfold removalChunk
  split_ifs with h <;> simp_all

theorem report_mem_removalChunk (env : Env) (d p : String) :
    Event.reportCleanupFailure p ∈ removalChunk env d ↔
      (p = d ∧ env.removeDirOk d = false) := by
  unfold removalChunk
  split_ifs with h <;> simp_all

theorem count_removalChunk (env : Env) (d p : String) :
    countRemoveAttempts (removalChunk env d) p = if d = p then 1 else 0 := by
  unfold removalChunk countRemoveAttempts
  split_ifs with h1 <;> simp_all

theorem mem_dropArgs_shape (env : Env) (a : Args) (e : Event)
    (h : e ∈ dropArgs env a) :
    (∃ p b, e = Event.removeDir p b) ∨ ∃ p, e = Event.reportCleanupFailure p := by
  unfold dropArgs at h
  rw [List.mem_append] at h
  rcases h with h | h
  · rcases hL : a.leaf_dir with _ | l <;> rw [hL] at h
    · simp at h
    · rcases mem_removalChunk_shape env l e h with ⟨b, hb⟩ | hb
      · exact Or.inl ⟨l, b, hb⟩
      · exact Or.inr ⟨l, hb⟩
  · rcases hT : a.temp_cg_dir with _ | t <;> rw [hT] at h
    · simp at h
    · rcases mem_removalChunk_shape env t e h with ⟨b, hb⟩ | hb
      · exact Or.inl ⟨t, b, hb⟩
      · exact Or.inr ⟨t, hb⟩

theorem removeDir_mem_dropArgs (env : Env) (a : Args) (p : String) (b : Bool) :
    Event.removeDir p b ∈ dropArgs env a ↔
      ((a.leaf_dir = some p ∨ a.temp_cg_dir = some p) ∧ b = env.removeDirOk p) := by
  unfold dropArgs
  rw [List.mem_append]
  rcases hL : a.leaf_dir with _ | l <;> rcases hT : a.temp_cg_dir with _ | t <;>
    simp [removeDir_mem_removalChunk] <;> aesop

theorem report_mem_dropArgs (env : Env) (a : Args) (p : String) :
    Event.reportCleanupFailure p ∈ dropArgs env a ↔
      ((a.leaf_dir = some p ∨ a.temp_cg_dir = some p) ∧ env.removeDirOk p = false) := by
  unfold dropArgs
  rw [List.mem_append]
  rcases hL : a.leaf_dir with _ | l <;> rcases hT : a.temp_cg_dir with _ | t <;>
    simp [report_mem_removalChunk] <;> aesop

theorem countRemoveAttempts_append (l₁ l₂ : List Event) (p : String) :
    countRemoveAttempts (l₁ ++ l₂) p =
      countRemoveAttempts l₁ p + countRemoveAttempts l₂ p := by
  unfold countRemoveAttempts
  exact List.countP_append _ _ _

theorem countRemoveAttempts_nil (p : String) : countRemoveAttempts [] p = 0 := rfl

theorem count_dropArgs (env : Env) (a : Args) (p : String) :
    countRemoveAttempts (dropArgs env a) p =
      (if a.leaf_dir = some p then 1 else 0) +
      (if a.temp_cg_dir = some p then 1 else 0) := by
  unfold dropArgs
  rw [countRemoveAttempts_append]
  rcases hL : a.leaf_dir with _ | l <;> rcases hT : a.temp_cg_dir with _ | t <;>
    simp only [count_removalChunk, countRemoveAttempts_nil] <;>
    split_ifs <;> simp_all

theorem occursBefore_intro (l₁ l₂ : List Event) (e₁ e₂ : Event) (h : e₂ ∈ l₂) :
    occursBefore (l₁ ++ e₁ :: l₂) e₁ e₂ = true := by
  induction l₁ with
  | nil =>
    simp only [List.nil_append, occursBefore, Bool.or_eq_true, Bool.and_eq_true,
      decide_eq_true_eq, List.any_eq_true]
    exact Or.inl ⟨by simp, e₂, h, rfl⟩
  | cons c rest ih =>
    simp only [List.cons_append, occursBefore, Bool.or_eq_true]
    exact Or.inr ih

/-! ### Shape of each phase -/

theorem check_cgroupfs_char (env : Env) (a : Args) :
    check_cgroupfs env a = ([], .ok a) ∨
    ∃ m, check_cgroupfs env a = ([], .error (.panicked m, a)) := by
  unfold check_cgroupfs
  dsimp only
  split
  · exact Or.inr ⟨_, rfl⟩
  · split
    · split
      · exact Or.inr ⟨_, rfl⟩
      · split
        · exact Or.inl rfl
        · exact Or.inr ⟨_, rfl⟩
    · exact Or.inr ⟨_, rfl⟩

theorem check_cgroup_dir_char (env : Env) (a : Args) :
    (∃ m, check_cgroup_dir env a = ([], .error (.panicked m, a))) ∨
    (∃ n, check_cgroup_dir env a = ([], .error (.exited n, a))) ∨
    (check_cgroup_dir env a = ([], .error (.delegated, a))) ∨
    (check_cgroup_dir env a = ([], .ok a)) ∨
    (∃ t, a.cg_dir = none ∧
      check_cgroup_dir env a = ([Event.createDir t], .ok { a with temp_cg_dir := some t })) := by
  unfold check_cgroup_dir
  rcases hd : a.cg_dir with _ | d
  · dsimp only
    split
    · exact Or.inl ⟨_, rfl⟩
    · split
      · exact Or.inl ⟨_, rfl⟩
      · split
        · split
          · split
            · exact Or.inr (Or.inr (Or.inr (Or.inr ⟨_, rfl, rfl⟩)))
            · exact Or.inl ⟨_, rfl⟩
          · exact Or.inl ⟨_, rfl⟩
        · unfold reexec_with_systemd_run
          split
          · exact Or.inr (Or.inl ⟨119, rfl⟩)
          · split
            · exact Or.inr (Or.inr (Or.inl rfl))
            · exact Or.inr (Or.inl ⟨118, rfl⟩)
  · dsimp only
    split
    · split
      · exact Or.inr (Or.inr (Or.inr (Or.inl rfl)))
      · exact Or.inl ⟨_, rfl⟩
    · exact Or.inl ⟨_, rfl⟩

theorem setup_cgroup_in_char (env : Env) (a : Args) (cg : String) :
    (∃ m, setup_cgroup_in env a cg = ([], .error (.panicked m, a))) ∨
    (∃ m, setup_cgroup_in env a cg = ([Event.createDir (cg ++ "/leaf")],
        .error (.panicked m, { a with leaf_dir := some (cg ++ "/leaf") }))) ∨
    (∃ m, setup_cgroup_in env a cg =
        ([Event.createDir (cg ++ "/leaf"),
          Event.writeSubtreeControl (cg ++ "/cgroup.subtree_control")],
         .error (.panicked m, { a with leaf_dir := some (cg ++ "/leaf") }))) ∨
    (setup_cgroup_in env a cg =
        ([Event.createDir (cg ++ "/leaf"),
          Event.writeSubtreeControl (cg ++ "/cgroup.subtree_control")],
         .ok { a with leaf_dir := some (cg ++ "/leaf") })) := by
  unfold setup_cgroup_in
  dsimp only
  split
  · split
    · split
      · split
        · split
          · exact Or.inr (Or.inr (Or.inr rfl))
          · exact Or.inr (Or.inr (Or.inl ⟨_, rfl⟩))
        · exact Or.inr (Or.inl ⟨_, rfl⟩)
      · exact Or.inr (Or.inl ⟨_, rfl⟩)
    · exact Or.inl ⟨_, rfl⟩
  · exact Or.inl ⟨_, rfl⟩

theorem setup_cgroup_char (env : Env) (a : Args) :
    (a.temp_cg_dir = none ∧ a.cg_dir = none ∧
      setup_cgroup env a = ([], .error (.panicked "Miss cgroup directory", a))) ∨
    ∃ cg, (a.temp_cg_dir = some cg ∨ (a.temp_cg_dir = none ∧ a.cg_dir = some cg)) ∧
      setup_cgroup env a = setup_cgroup_in env a cg := by
  unfold setup_cgroup
  rcases ht : a.temp_cg_dir with _ | t
  · rcases hd : a.cg_dir with _ | d
    · exact Or.inl ⟨rfl, rfl, rfl⟩
    · exact Or.inr ⟨d, Or.inr ⟨rfl, rfl⟩, rfl⟩
  · exact Or.inr ⟨t, Or.inl rfl, rfl⟩

theorem execute_in_char (env : Env) (a : Args) (leaf : String)
    (hc : a.command ≠ []) :
    (∃ m, execute_in env a leaf = ([], .error (.panicked m, a))) ∨
    ∃ s, ((env.execOk = true ∧ s = env.childStatus) ∨
          (env.execOk = false ∧ s = 127)) ∧
      ((∃ m, execute_in env a leaf =
          ([Event.spawnChild, Event.childExit s], .error (.panicked m, a))) ∨
       (∃ m, execute_in env a leaf =
          ([Event.spawnChild, Event.childExit s, Event.waitChild],
           .error (.panicked m, a))) ∨
       (∃ mtr, execute_in env a leaf =
          ([Event.spawnChild, Event.childExit s, Event.waitChild] ++ dropArgs env a,
           .ok mtr))) := by
  have hchild :
      (env.execOk = true ∧ childEvents env a = [Event.childExit env.childStatus]) ∨
      (env.execOk = false ∧ childEvents env a = [Event.childExit 127]) := by
    unfold childEvents
    rcases hcmd : a.command with _ | ⟨c0, crest⟩
    · exact absurd hcmd hc
    · rcases hex : env.execOk with _ | _
      · exact Or.inr ⟨rfl, by simp⟩
      · exact Or.inl ⟨rfl, by simp⟩
  unfold execute_in
  split
  · split
    · rcases hchild with ⟨hex, hce⟩ | ⟨hex, hce⟩
      · rw [hce]
        refine Or.inr ⟨env.childStatus, Or.inl ⟨hex, rfl⟩, ?_⟩
        repeat' split
        all_goals first
          | exact Or.inl ⟨_, rfl⟩
          | exact Or.inr (Or.inl ⟨_, rfl⟩)
          | exact Or.inr (Or.inr ⟨_, rfl⟩)
      · rw [hce]
        refine Or.inr ⟨127, Or.inr ⟨hex, rfl⟩, ?_⟩
        repeat' split
        all_goals first
          | exact Or.inl ⟨_, rfl⟩
          | exact Or.inr (Or.inl ⟨_, rfl⟩)
          | exact Or.inr (Or.inr ⟨_, rfl⟩)
    · exact Or.inl ⟨_, rfl⟩
  · exact Or.inl ⟨_, rfl⟩

theorem execute_char (env : Env) (a : Args) (hc : a.command ≠ []) :
    (∃ m, execute env a = ([], .error (.panicked m, a))) ∨
    ∃ l s, a.leaf_dir = some l ∧
      ((env.execOk = true ∧ s = env.childStatus) ∨ (env.execOk = false ∧ s = 127)) ∧
      ((∃ m, execute env a =
          ([Event.spawnChild, Event.childExit s], .error (.panicked m, a))) ∨
       (∃ m, execute env a =
          ([Event.spawnChild, Event.childExit s, Event.waitChild],
           .error (.panicked m, a))) ∨
       (∃ mtr, execute env a =
          ([Event.spawnChild, Event.childExit s, Event.waitChild] ++ dropArgs env a,
           .ok mtr))) := by
  unfold execute
  rcases hl : a.leaf_dir with _ | l
  · exact Or.inl ⟨_, rfl⟩
  · rcases execute_in_char env a l hc with ⟨m, hm⟩ | ⟨s, hs, hrest⟩
    · exact Or.inl ⟨m, hm⟩
    · exact Or.inr ⟨l, s, rfl, hs, hrest⟩

/-! ### Step equations for the composed run -/

theorem runMain_err (env : Env) (a : Args) (ev : List Event) (ab : Abort × Args)
    (h : check_cgroupfs env a = (ev, .error ab)) :
    runMain env a = (ev ++ abortEvents env ab, abortOutcome ab.1) := by
  unfold runMain; rw [h]

theorem runMain_ok (env : Env) (a a1 : Args) (ev : List Event)
    (h : check_cgroupfs env a = (ev, .ok a1)) :
    runMain env a = runLocate env ev a1 := by
  unfold runMain; rw [h]

theorem runLocate_err (env : Env) (a1 : Args) (pre ev2 : List Event)
    (ab : Abort × Args) (h : check_cgroup_dir env a1 = (ev2, .error ab)) :
    runLocate env pre a1 = (pre ++ ev2 ++ abortEvents env ab, abortOutcome ab.1) := by
  unfold runLocate; rw [h]

theorem runLocate_ok (env : Env) (a1 a2 : Args) (pre ev2 : List Event)
    (h : check_cgroup_dir env a1 = (ev2, .ok a2)) :
    runLocate env pre a1 = runSetup env (pre ++ ev2) a2 := by
  unfold runLocate; rw [h]

theorem runSetup_err (env : Env) (a2 : Args) (pre ev3 : List Event)
    (ab : Abort × Args) (h : setup_cgroup env a2 = (ev3, .error ab)) :
    runSetup env pre a2 = (pre ++ ev3 ++ abortEvents env ab, abortOutcome ab.1) := by
  unfold runSetup; rw [h]

theorem runSetup_ok (env : Env) (a2 a3 : Args) (pre ev3 : List Event)
    (h : setup_cgroup env a2 = (ev3, .ok a3)) :
    runSetup env pre a2 = runExec env (pre ++ ev3) a3 := by
  unfold runSetup; rw [h]

theorem runExec_err (env : Env) (a3 : Args) (pre ev4 : List Event)
    (ab : Abort × Args) (h : execute env a3 = (ev4, .error ab)) :
    runExec env pre a3 = (pre ++ ev4 ++ abortEvents env ab, abortOutcome ab.1) := by
  unfold runExec; rw [h]

theorem runExec_ok (env : Env) (a3 : Args) (pre ev4 : List Event) (m : Metrics)
    (h : execute env a3 = (ev4, .ok m)) :
    runExec env pre a3 = (pre ++ ev4 ++ [Event.printResult], Outcome.success m) := by
  unfold runExec; rw [h]

/-- Master shape analysis of a full run started from a freshly parsed
`Args` (the two `#[arg(skip)]` fields are `None`, the external subcommand
is non-empty).  Either the run aborts before any side effect, or it
creates the optional ephemeral target directory `loc`, then the leaf,
then writes the controller enable, then spawns; on every panic path the
directories recorded so far are dropped, and on the success path the drop
happens before the final print. -/
theorem runMain_char (env : Env) (a : Args)
    (ht : a.temp_cg_dir = none) (hl : a.leaf_dir = none) (hc : a.command ≠ []) :
    ((runMain env a).1 = [] ∧
      ((∃ m, (runMain env a).2 = Outcome.panicked m) ∨
       (∃ n, (runMain env a).2 = Outcome.exited n) ∨
       (runMain env a).2 = Outcome.delegated)) ∨
    ∃ (loc : List Event) (aT : Args) (cg : String),
      ((loc = [] ∧ aT = a ∧ a.cg_dir = some cg) ∨
       (loc = [Event.createDir cg] ∧ aT = { a with temp_cg_dir := some cg } ∧
        a.cg_dir = none)) ∧
      ((∃ m, runMain env a = (loc ++ dropArgs env aT, Outcome.panicked m)) ∨
       (∃ m, runMain env a =
          (loc ++ [Event.createDir (cg ++ "/leaf")]
             ++ dropArgs env { aT with leaf_dir := some (cg ++ "/leaf") },
           Outcome.panicked m)) ∨
       (∃ m, runMain env a =
          (loc ++ [Event.createDir (cg ++ "/leaf"),
                   Event.writeSubtreeControl (cg ++ "/cgroup.subtree_control")]
             ++ dropArgs env { aT with leaf_dir := some (cg ++ "/leaf") },
           Outcome.panicked m)) ∨
       (∃ s, ((env.execOk = true ∧ s = env.childStatus) ∨
              (env.execOk = false ∧ s = 127)) ∧
         ((∃ m, runMain env a =
            (loc ++ [Event.createDir (cg ++ "/leaf"),
                     Event.writeSubtreeControl (cg ++ "/cgroup.subtree_control"),
                     Event.spawnChild, Event.childExit s]
               ++ dropArgs env { aT with leaf_dir := some (cg ++ "/leaf") },
             Outcome.panicked m)) ∨
          (∃ m, runMain env a =
            (loc ++ [Event.createDir (cg ++ "/leaf"),
                     Event.writeSubtreeControl (cg ++ "/cgroup.subtree_control"),
                     Event.spawnChild, Event.childExit s, Event.waitChild]
               ++ dropArgs env { aT with leaf_dir := some (cg ++ "/leaf") },
             Outcome.panicked m)) ∨
          (∃ mtr, runMain env a =
            (loc ++ [Event.createDir (cg ++ "/leaf"),
                     Event.writeSubtreeControl (cg ++ "/cgroup.subtree_control"),
                     Event.spawnChild, Event.childExit s, Event.waitChild]
               ++ dropArgs env { aT with leaf_dir := some (cg ++ "/leaf") }
               ++ [Event.printResult],
             Outcome.success mtr))))) := by
  have hdnil : dropArgs env a = [] := dropArgs_nil env a hl ht
  rcases check_cgroupfs_char env a with h1 | ⟨m1, h1⟩
  case inr =>
    left
    rw [runMain_err env a [] _ h1]
    exact ⟨by simp [abortEvents, abortOutcome, hdnil], Or.inl ⟨m1, by simp [abortOutcome]⟩⟩
  case inl =>
  rw [runMain_ok env a a [] h1]
  rcases check_cgroup_dir_char env a with ⟨m2, h2⟩ | ⟨n, h2⟩ | h2 | h2 | ⟨t, hdnone, h2⟩
  · left
    rw [runLocate_err env a [] [] _ h2]
    exact ⟨by simp [abortEvents, abortOutcome, hdnil], Or.inl ⟨m2, by simp [abortOutcome]⟩⟩
  · left
    rw [runLocate_err env a [] [] _ h2]
    exact ⟨by simp [abortEvents], Or.inr (Or.inl ⟨n, by simp [abortOutcome]⟩)⟩
  · left
    rw [runLocate_err env a [] [] _ h2]
    exact ⟨by simp [abortEvents], Or.inr (Or.inr (by simp [abortOutcome]))⟩
  · -- explicit target directory, Args unchanged
    rw [runLocate_ok env a a [] [] h2]
    rcases setup_cgroup_char env a with ⟨_, hd2, hsMiss⟩ | ⟨cg, hbase, hseq⟩
    · left
      rw [runSetup_err env a _ [] _ hsMiss]
      exact ⟨by simp [abortEvents, abortOutcome, hdnil],
        Or.inl ⟨"Miss cgroup directory", by simp [abortOutcome]⟩⟩
    · have hcg : a.cg_dir = some cg := by
        rcases hbase with hcontra | ⟨_, hcg⟩
        · rw [ht] at hcontra; exact absurd hcontra (by simp)
        · exact hcg
      have hcNE : ({ a with leaf_dir := some (cg ++ "/leaf") } : Args).command ≠ [] := hc
      rcases setup_cgroup_in_char env a cg with ⟨m3, hs⟩ | ⟨m3, hs⟩ | ⟨m3, hs⟩ | hs
      · right
        refine ⟨[], a, cg, Or.inl ⟨rfl, rfl, hcg⟩, Or.inl ⟨m3, ?_⟩⟩
        rw [runSetup_err env a _ _ _ (hseq.trans hs)]
        simp [abortEvents, abortOutcome, hdnil]
      · right
        refine ⟨[], a, cg, Or.inl ⟨rfl, rfl, hcg⟩, Or.inr (Or.inl ⟨m3, ?_⟩)⟩
        rw [runSetup_err env a _ _ _ (hseq.trans hs)]
        simp [abortEvents, abortOutcome]
      · right
        refine ⟨[], a, cg, Or.inl ⟨rfl, rfl, hcg⟩, Or.inr (Or.inr (Or.inl ⟨m3, ?_⟩))⟩
        rw [runSetup_err env a _ _ _ (hseq.trans hs)]
        simp [abortEvents, abortOutcome]
      · rw [runSetup_ok env a _ _ _ (hseq.trans hs)]
        rcases execute_char env _ hcNE with ⟨m4, he⟩ | ⟨l, s, _, hsOk, hrest⟩
        · right
          refine ⟨[], a, cg, Or.inl ⟨rfl, rfl, hcg⟩, Or.inr (Or.inr (Or.inl ⟨m4, ?_⟩))⟩
          rw [runExec_err env _ _ _ _ he]
          simp [abortEvents, abortOutcome]
        · rcases hrest with ⟨m4, he⟩ | ⟨m4, he⟩ | ⟨mtr, he⟩
          · right
            refine ⟨[], a, cg, Or.inl ⟨rfl, rfl, hcg⟩,
              Or.inr (Or.inr (Or.inr ⟨s, hsOk, Or.inl ⟨m4, ?_⟩⟩))⟩
            rw [runExec_err env _ _ _ _ he]
            simp [abortEvents, abortOutcome]
          · right
            refine ⟨[], a, cg, Or.inl ⟨rfl, rfl, hcg⟩,
              Or.inr (Or.inr (Or.inr ⟨s, hsOk, Or.inr (Or.inl ⟨m4, ?_⟩)⟩))⟩
            rw [runExec_err env _ _ _ _ he]
            simp [abortEvents, abortOutcome]
          · right
            refine ⟨[], a, cg, Or.inl ⟨rfl, rfl, hcg⟩,
              Or.inr (Or.inr (Or.inr ⟨s, hsOk, Or.inr (Or.inr ⟨mtr, ?_⟩)⟩))⟩
            rw [runExec_ok env _ _ _ _ he]
            simp
  · -- derived ephemeral target directory
    rw [runLocate_ok env a _ [] _ h2]
    rcases setup_cgroup_char env { a with temp_cg_dir := some t } with
      ⟨hcontra, _, _⟩ | ⟨cg, hbase, hseq⟩
    · exact absurd hcontra (by simp)
    · have hcgt : cg = t := by
        rcases hbase with hsome | ⟨hcontra, _⟩
        · simpa using hsome.symm
        · exact absurd hcontra (by simp)
      subst hcgt
      have hcNE2 :
          ({ { a with temp_cg_dir := some cg } with
              leaf_dir := some (cg ++ "/leaf") } : Args).command ≠ [] := hc
      rcases setup_cgroup_in_char env { a with temp_cg_dir := some cg } cg with
        ⟨m3, hs⟩ | ⟨m3, hs⟩ | ⟨m3, hs⟩ | hs
      · right
        refine ⟨[Event.createDir cg], { a with temp_cg_dir := some cg }, cg,
          Or.inr ⟨rfl, rfl, hdnone⟩, Or.inl ⟨m3, ?_⟩⟩
        rw [runSetup_err env _ _ _ _ (hseq.trans hs)]
        simp [abortEvents, abortOutcome]
      · right
        refine ⟨[Event.createDir cg], { a with temp_cg_dir := some cg }, cg,
          Or.inr ⟨rfl, rfl, hdnone⟩, Or.inr (Or.inl ⟨m3, ?_⟩)⟩
        rw [runSetup_err env _ _ _ _ (hseq.trans hs)]
        simp [abortEvents, abortOutcome]
      · right
        refine ⟨[Event.createDir cg], { a with temp_cg_dir := some cg }, cg,
          Or.inr ⟨rfl, rfl, hdnone⟩, Or.inr (Or.inr (Or.inl ⟨m3, ?_⟩))⟩
        rw [runSetup_err env _ _ _ _ (hseq.trans hs)]
        simp [abortEvents, abortOutcome]
      · rw [runSetup_ok env _ _ _ _ (hseq.trans hs)]
        rcases execute_char env _ hcNE2 with ⟨m4, he⟩ | ⟨l, s, _, hsOk, hrest⟩
        · right
          refine ⟨[Event.createDir cg], { a with temp_cg_dir := some cg }, cg,
            Or.inr ⟨rfl, rfl, hdnone⟩, Or.inr (Or.inr (Or.inl ⟨m4, ?_⟩))⟩
          rw [runExec_err env _ _ _ _ he]
          simp [abortEvents, abortOutcome]
        · rcases hrest with ⟨m4, he⟩ | ⟨m4, he⟩ | ⟨mtr, he⟩
          · right
            refine ⟨[Event.createDir cg], { a with temp_cg_dir := some cg }, cg,
              Or.inr ⟨rfl, rfl, hdnone⟩,
              Or.inr (Or.inr (Or.inr ⟨s, hsOk, Or.inl ⟨m4, ?_⟩⟩))⟩
            rw [runExec_err env _ _ _ _ he]
            simp [abortEvents, abortOutcome]
          · right
            refine ⟨[Event.createDir cg], { a with temp_cg_dir := some cg }, cg,
              Or.inr ⟨rfl, rfl, hdnone⟩,
              Or.inr (Or.inr (Or.inr ⟨s, hsOk, Or.inr (Or.inl ⟨m4, ?_⟩)⟩))⟩
            rw [runExec_err env _ _ _ _ he]
            simp [abortEvents, abortOutcome]
          · right
            refine ⟨[Event.createDir cg], { a with temp_cg_dir := some cg }, cg,
              Or.inr ⟨rfl, rfl, hdnone⟩,
              Or.inr (Or.inr (Or.inr ⟨s, hsOk, Or.inr (Or.inr ⟨mtr, ?_⟩)⟩))⟩
            rw [runExec_ok env _ _ _ _ he]
            simp

/-! ### Event membership helpers -/

theorem occursBefore_of_eq (tr l₁ l₂ : List Event) (e₁ e₂ : Event)
    (htr : tr = l₁ ++ e₁ :: l₂) (h : e₂ ∈ l₂) : occursBefore tr e₁ e₂ = true := by
  rw [htr]; exact occursBefore_intro l₁ l₂ e₁ e₂ h

theorem createDir_not_mem_dropArgs (env : Env) (x : Args) (p : String) :
    Event.createDir p ∉ dropArgs env x := by
  intro h
  rcases mem_dropArgs_shape env x _ h with ⟨q, b, hq⟩ | ⟨q, hq⟩ <;> simp at hq

theorem spawn_not_mem_dropArgs (env : Env) (x : Args) :
    Event.spawnChild ∉ dropArgs env x := by
  intro h
  rcases mem_dropArgs_shape env x _ h with ⟨q, b, hq⟩ | ⟨q, hq⟩ <;> simp at hq

theorem write_not_mem_dropArgs (env : Env) (x : Args) (p : String) :
    Event.writeSubtreeControl p ∉ dropArgs env x := by
  intro h
  rcases mem_dropArgs_shape env x _ h with ⟨q, b, hq⟩ | ⟨q, hq⟩ <;> simp at hq

theorem print_not_mem_dropArgs (env : Env) (x : Args) :
    Event.printResult ∉ dropArgs env x := by
  intro h
  rcases mem_dropArgs_shape env x _ h with ⟨q, b, hq⟩ | ⟨q, hq⟩ <;> simp at hq

/-- Shared ordering argument: once a run trace is known to have the shape
`loc ++ [create leaf, enable write, spawn] ++ tail` (with `loc` the
optional ephemeral-dir creation and no directory creation in `tail`), all
the provisioning-order facts follow. -/
theorem order_in_shape (env : Env) (a : Args) (loc tail : List Event) (cg : String)
    (hlocE : loc = [] ∨ loc = [Event.createDir cg])
    (he1 : (runMain env a).1 =
       loc ++ [Event.createDir (cg ++ "/leaf"),
               Event.writeSubtreeControl (cg ++ "/cgroup.subtree_control"),
               Event.spawnChild] ++ tail)
    (hnd : ∀ p, Event.createDir p ∉ tail) :
    occursBefore (runMain env a).1 (Event.createDir (cg ++ "/leaf"))
      (Event.writeSubtreeControl (cg ++ "/cgroup.subtree_control")) = true ∧
    occursBefore (runMain env a).1
      (Event.writeSubtreeControl (cg ++ "/cgroup.subtree_control"))
      Event.spawnChild = true ∧
    ∀ p, Event.createDir p ∈ (runMain env a).1 →
      occursBefore (runMain env a).1 (Event.createDir p) Event.spawnChild = true := by
  refine ⟨?_, ?_, ?_⟩
  · refine occursBefore_of_eq _ loc
      ([Event.writeSubtreeControl (cg ++ "/cgroup.subtree_control"),
        Event.spawnChild] ++ tail) _ _ ?_ (by simp)
    rw [he1]; simp
  · refine occursBefore_of_eq _
      (loc ++ [Event.createDir (cg ++ "/leaf")])
      ([Event.spawnChild] ++ tail) _ _ ?_ (by simp)
    rw [he1]; simp
  · intro p hp
    rw [he1] at hp
    rcases List.mem_append.mp hp with hp1 | hp2
    · rcases List.mem_append.mp hp1 with hp3 | hp4
      · -- in loc: only possible when loc is the ephemeral creation
        rcases hlocE with h0 | h0
        · rw [h0] at hp3; simp at hp3
        · rw [h0] at hp3
          simp at hp3
          rw [hp3]
          refine occursBefore_of_eq _ []
            ([Event.createDir (cg ++ "/leaf"),
              Event.writeSubtreeControl (cg ++ "/cgroup.subtree_control"),
              Event.spawnChild] ++ tail) _ _ ?_ (by simp)
          rw [he1, h0]; simp
      · -- the leaf creation itself
        simp at hp4
        subst hp4
        refine occursBefore_of_eq _ loc
          ([Event.writeSubtreeControl (cg ++ "/cgroup.subtree_control"),
            Event.spawnChild] ++ tail) _ _ ?_ (by simp)
        rw [he1]; simp
    · exact absurd hp2 (hnd p)

/-! ### Concrete runs used as witnesses and counterexamples -/

/-- A fully cooperative environment: mount "/m" lists the memory
controller, the explicit target "/cg" exists, every syscall succeeds, the
leaf's memory.peak reads "42". -/
def env0 : Env where
  readFile := fun p =>
    if p = "/m/cgroup.controllers" then some "memory "
    else if p = "/m/cgroup.subtree_control" then some "memory "
    else if p = "/cg/leaf/memory.peak" then some "42"
    else none
  metaExists := fun _ => true
  metaIsDir := fun _ => true
  tempdirOk := true
  tempdirSuffix := "ab12cd"
  systemdExecOk := true
  readDirOk := fun _ => true
  createDirOk := fun _ => true
  openWriteOk := fun _ => true
  writeOk := true
  flushOk := true
  openDirFdOk := fun _ => true
  cloneOk := true
  execOk := true
  sigIntOk := true
  sigQuitOk := true
  waitOk := true
  clockOk := true
  childStatus := 0
  utimeSec := 0
  utimeUsec := 0
  stimeSec := 0
  stimeUsec := 0
  maxrss := 0
  wallNs := 0
  removeDirOk := fun _ => true

/-- Freshly parsed arguments: mount "/m", explicit target "/cg", skip
fields `None`, command `true`. -/
def args0 : Args where
  cg_fs_dir := "/m"
  cg_dir := some "/cg"
  temp_cg_dir := none
  leaf_dir := none
  machine_readable := false
  delim := ';'
  disable_systemd_run := false
  command := ["true"]

/-! ### Claim C1 -/

/-- Claim C1, counterexample to the claimed order: in the concrete,
fully successful run of `runMain env0 args0` both the leaf creation and
the controller-enable write occur, but the leaf-directory creation occurs
strictly BEFORE the write to the subtree-control file — the write never
precedes leaf creation — refuting the claim that leaf creation occurs
strictly after the enable write succeeds (source: `setup_cgroup` creates
`leaf` at lines 152-155 and only then writes "+memory" at lines 157-165). -/
theorem C1_counterexample :
    Event.createDir "/cg/leaf" ∈ (runMain env0 args0).1 ∧
    Event.writeSubtreeControl "/cg/cgroup.subtree_control" ∈ (runMain env0 args0).1 ∧
    occursBefore (runMain env0 args0).1
      (Event.writeSubtreeControl "/cg/cgroup.subtree_control")
      (Event.createDir "/cg/leaf") = false ∧
    occursBefore (runMain env0 args0).1
      (Event.createDir "/cg/leaf")
      (Event.writeSubtreeControl "/cg/cgroup.subtree_control") = true := by
  decide

/-- Claim C1 (amended): in every run that creates a child process, the
leaf-cgroup directory creation occurs strictly BEFORE the successful
write enabling the memory controller on the target's subtree-control
file, the write occurs strictly before the child-process creation, and
every directory creation of the run (the leaf, and the ephemeral target
if one is derived) occurs strictly before the child-process creation —
provisioning completes fully before any process is created. -/
theorem C1_provisioning_order (env : Env) (a : Args)
    (ht : a.temp_cg_dir = none) (hl : a.leaf_dir = none) (hc : a.command ≠ [])
    (hspawn : Event.spawnChild ∈ (runMain env a).1) :
    ∃ leaf ctl,
      occursBefore (runMain env a).1 (Event.createDir leaf)
        (Event.writeSubtreeControl ctl) = true ∧
      occursBefore (runMain env a).1 (Event.writeSubtreeControl ctl)
        Event.spawnChild = true ∧
      ∀ p, Event.createDir p ∈ (runMain env a).1 →
        occursBefore (runMain env a).1 (Event.createDir p) Event.spawnChild = true := by
  rcases runMain_char env a ht hl hc with ⟨htr, _⟩ | ⟨loc, aT, cg, hloc, hshapes⟩
  · rw [htr] at hspawn; simp at hspawn
  · have hlocE : loc = [] ∨ loc = [Event.createDir cg] := by
      rcases hloc with ⟨h, _, _⟩ | ⟨h, _, _⟩
      · exact Or.inl h
      · exact Or.inr h
    refine ⟨cg ++ "/leaf", cg ++ "/cgroup.subtree_control", ?_⟩
    rcases hshapes with ⟨m, he⟩ | ⟨m, he⟩ | ⟨m, he⟩ | ⟨s, hsOk, hrest⟩
    · exfalso
      rw [he] at hspawn
      simp at hspawn
      rcases hspawn with h | h
      · rcases hlocE with h2 | h2 <;> rw [h2] at h <;> simp at h
      · exact spawn_not_mem_dropArgs env aT h
    · exfalso
      rw [he] at hspawn
      simp at hspawn
      rcases hspawn with h | h
      · rcases hlocE with h2 | h2 <;> rw [h2] at h <;> simp at h
      · exact spawn_not_mem_dropArgs env _ h
    · exfalso
      rw [he] at hspawn
      simp at hspawn
      rcases hspawn with h | h
      · rcases hlocE with h2 | h2 <;> rw [h2] at h <;> simp at h
      · exact spawn_not_mem_dropArgs env _ h
    · rcases hrest with ⟨m, he⟩ | ⟨m, he⟩ | ⟨mtr, he⟩
      · refine order_in_shape env a loc
          ([Event.childExit s] ++ dropArgs env { aT with leaf_dir := some (cg ++ "/leaf") })
          cg hlocE (by rw [he]; try simp) ?_
        intro p hp
        rcases List.mem_append.mp hp with h | h
        · simp at h
        · exact createDir_not_mem_dropArgs env _ p h
      · refine order_in_shape env a loc
          ([Event.childExit s, Event.waitChild]
            ++ dropArgs env { aT with leaf_dir := some (cg ++ "/leaf") })
          cg hlocE (by rw [he]; try simp) ?_
        intro p hp
        rcases List.mem_append.mp hp with h | h
        · simp at h
        · exact createDir_not_mem_dropArgs env _ p h
      · refine order_in_shape env a loc
          ([Event.childExit s, Event.waitChild]
            ++ dropArgs env { aT with leaf_dir := some (cg ++ "/leaf") }
            ++ [Event.printResult])
          cg hlocE (by rw [he]; try simp) ?_
        intro p hp
        rcases List.mem_append.mp hp with h | h
        · rcases List.mem_append.mp h with h2 | h2
          · simp at h2
          · exact createDir_not_mem_dropArgs env _ p h2
        · simp at h

/-- Claim C1, witness: the amended ordering theorem applied to the
concrete successful run `runMain env0 args0`. -/
theorem C1_provisioning_order_witness :
    (args0.temp_cg_dir = none ∧ args0.leaf_dir = none ∧ args0.command ≠ [] ∧
      Event.spawnChild ∈ (runMain env0 args0).1) ∧
    (∃ leaf ctl,
      occursBefore (runMain env0 args0).1 (Event.createDir leaf)
        (Event.writeSubtreeControl ctl) = true ∧
      occursBefore (runMain env0 args0).1 (Event.writeSubtreeControl ctl)
        Event.spawnChild = true ∧
      ∀ p, Event.createDir p ∈ (runMain env0 args0).1 →
        occursBefore (runMain env0 args0).1 (Event.createDir p) Event.spawnChild = true) :=
  ⟨⟨rfl, rfl, by decide, by decide⟩,
   C1_provisioning_order env0 args0 rfl rfl (by decide) (by decide)⟩

/-! ### Claim C2 -/

/-- Environment of the C2 failing input: wait4 reports
`ru_utime = 0 s + 500000 us` and `ru_stime = 0 s + 250000 us`. -/
def envC2 : Env := { env0 with utimeUsec := 500000, stimeUsec := 250000 }

/-- Claim C2, evaluation of the code at the failing input: the source
converts the microseconds field of `ru_utime`/`ru_stime` with
`Duration::from_nanos` (main.rs lines 230-233), so for `tv_sec = 0`,
`tv_usec = 500000` the reported user time is 500000 ns instead of the
500000 us (= 500000000 ns) that the claim (and the rusage semantics)
require; the claimed equality fails for both user and system time. -/
theorem C2_usec_treated_as_nanos :
    ∃ m, (runMain envC2 args0).2 = Outcome.success m ∧
      m.child_user_ns = 500000 ∧
      m.child_sys_ns = 250000 ∧
      (envC2.utimeSec * 1000000 + envC2.utimeUsec) * 1000 = 500000000 ∧
      m.child_user_ns ≠ (envC2.utimeSec * 1000000 + envC2.utimeUsec) * 1000 ∧
      m.child_sys_ns ≠ (envC2.stimeSec * 1000000 + envC2.stimeUsec) * 1000 :=
  ⟨⟨500000, 250000, 0, 0, 42⟩, by decide, rfl, rfl, by decide, by decide, by decide⟩

/-! ### Claim C3 -/

/-- Claim C3: when the target command cannot be started (the exec in the
child fails), the child copy of the harness exits with status 127, and —
whenever the run completes its report — every directory this run created
(the leaf, and the ephemeral target if one was derived) is successfully
removed strictly before the final print, i.e. before the harness exits. -/
theorem C3_exec_failure_cleanup (env : Env) (a : Args)
    (ht : a.temp_cg_dir = none) (hl : a.leaf_dir = none) (hc : a.command ≠ [])
    (hexec : env.execOk = false)
    (hrm : ∀ p, env.removeDirOk p = true)
    (hs : ∃ m, (runMain env a).2 = Outcome.success m) :
    Event.childExit 127 ∈ (runMain env a).1 ∧
    ∀ p, Event.createDir p ∈ (runMain env a).1 →
      occursBefore (runMain env a).1 (Event.removeDir p true)
        Event.printResult = true := by
  obtain ⟨mm, hsm⟩ := hs
  rcases runMain_char env a ht hl hc with ⟨_, ho⟩ | ⟨loc, aT, cg, hloc, hshapes⟩
  · exfalso
    rcases ho with ⟨m, h⟩ | ⟨n, h⟩ | h <;> rw [hsm] at h <;> simp at h
  · rcases hshapes with ⟨m, he⟩ | ⟨m, he⟩ | ⟨m, he⟩ | ⟨s, hsOk, hrest⟩
    · exfalso; rw [he] at hsm; simp at hsm
    · exfalso; rw [he] at hsm; simp at hsm
    · exfalso; rw [he] at hsm; simp at hsm
    · rcases hrest with ⟨m, he⟩ | ⟨m, he⟩ | ⟨mtr, he⟩
      · exfalso; rw [he] at hsm; simp at hsm
      · exfalso; rw [he] at hsm; simp at hsm
      · have hs127 : s = 127 := by
          rcases hsOk with ⟨hx, _⟩ | ⟨_, h2⟩
          · rw [hexec] at hx; simp at hx
          · exact h2
        subst hs127
        constructor
        · rw [he]; simp
        · intro p hp
          rw [he] at hp
          have hpcase : p = cg ++ "/leaf" ∨ aT.temp_cg_dir = some p := by
            have hnd := createDir_not_mem_dropArgs env
              { aT with leaf_dir := some (cg ++ "/leaf") } p
            rcases hloc with ⟨h0, haT, _⟩ | ⟨h0, haT, _⟩ <;> rw [h0] at hp <;>
              simp [hnd] at hp
            · exact Or.inl hp
            · rcases hp with h7 | h7
              · right; rw [haT]; simp [h7]
              · exact Or.inl h7
          have hmem : Event.removeDir p true ∈
              dropArgs env { aT with leaf_dir := some (cg ++ "/leaf") } := by
            rw [removeDir_mem_dropArgs]
            refine ⟨?_, (hrm p).symm⟩
            rcases hpcase with h7 | h7
            · left; simp [h7]
            · right; simpa using h7
          obtain ⟨d1, d2, hd⟩ := List.append_of_mem hmem
          refine occursBefore_of_eq _
            ((loc ++ [Event.createDir (cg ++ "/leaf"),
                      Event.writeSubtreeControl (cg ++ "/cgroup.subtree_control"),
                      Event.spawnChild, Event.childExit 127, Event.waitChild]) ++ d1)
            (d2 ++ [Event.printResult]) _ _ ?_ (by simp)
          rw [he]
          rw [hd]
          simp

/-- Claim C3, witness: a concrete run in which the exec of the target
command fails; the child exits 127 and the leaf directory is removed
before the final print. -/
theorem C3_exec_failure_cleanup_witness :
    (args0.temp_cg_dir = none ∧ args0.leaf_dir = none ∧ args0.command ≠ [] ∧
      ({ env0 with execOk := false } : Env).execOk = false ∧
      (∀ p, ({ env0 with execOk := false } : Env).removeDirOk p = true) ∧
      (∃ m, (runMain { env0 with execOk := false } args0).2 = Outcome.success m)) ∧
    (Event.childExit 127 ∈ (runMain { env0 with execOk := false } args0).1 ∧
     ∀ p, Event.createDir p ∈ (runMain { env0 with execOk := false } args0).1 →
       occursBefore (runMain { env0 with execOk := false } args0).1
         (Event.removeDir p true) Event.printResult = true) :=
  ⟨⟨rfl, rfl, by decide, rfl, fun _ => rfl, ⟨⟨0, 0, 0, 0, 42⟩, by decide⟩⟩,
   C3_exec_failure_cleanup { env0 with execOk := false } args0 rfl rfl (by decide)
     rfl (fun _ => rfl) ⟨⟨0, 0, 0, 0, 42⟩, by decide⟩⟩

/-! ### Claim C4 -/

/-- Claim C4: for an explicitly supplied target directory `d` (the `-c`
option), the run never creates nor deletes `d` itself on any exit path:
every directory creation and every removal attempt in the trace concerns
exactly the nested leaf `d ++ "/leaf"`. -/
theorem C4_explicit_dir_frame (env : Env) (a : Args) (d : String)
    (hd : a.cg_dir = some d) (ht : a.temp_cg_dir = none) (hl : a.leaf_dir = none)
    (hc : a.command ≠ []) :
    (∀ p, Event.createDir p ∈ (runMain env a).1 → p = d ++ "/leaf") ∧
    (∀ p b, Event.removeDir p b ∈ (runMain env a).1 → p = d ++ "/leaf") ∧
    Event.createDir d ∉ (runMain env a).1 ∧
    ∀ b, Event.removeDir d b ∉ (runMain env a).1 := by
  have hdne : d ++ "/leaf" ≠ d := append_ne_self d "/leaf" (by decide)
  have key : (∀ p, Event.createDir p ∈ (runMain env a).1 → p = d ++ "/leaf") ∧
      (∀ p b, Event.removeDir p b ∈ (runMain env a).1 → p = d ++ "/leaf") := by
    rcases runMain_char env a ht hl hc with ⟨htr, _⟩ | ⟨loc, aT, cg, hloc, hshapes⟩
    · rw [htr]
      exact ⟨fun p hp => absurd hp (by simp), fun p b hb => absurd hb (by simp)⟩
    · rcases hloc with ⟨hlocnil, haT, hcg⟩ | ⟨_, _, hcontra⟩
      swap
      · rw [hd] at hcontra; exact absurd hcontra (by simp)
      · have hcgd : d = cg := by
          rw [hd] at hcg; exact Option.some.inj hcg
        subst hcgd
        replace haT := haT.symm
        subst haT
        subst hlocnil
        have hrmd : ∀ p b, Event.removeDir p b ∈
            dropArgs env { a with leaf_dir := some (d ++ "/leaf") } →
            p = d ++ "/leaf" := by
          intro p b h
          rw [removeDir_mem_dropArgs] at h
          rcases h.1 with h1 | h1
          · simp at h1; exact h1.symm
          · simp [ht] at h1
        rcases hshapes with ⟨m, he⟩ | ⟨m, he⟩ | ⟨m, he⟩ | ⟨s, _, hrest⟩
        · rw [he, dropArgs_nil env a hl ht]
          exact ⟨fun p hp => absurd hp (by simp), fun p b hb => absurd hb (by simp)⟩
        · refine ⟨fun p hp => ?_, fun p b hb => ?_⟩
          · rw [he] at hp
            simp [createDir_not_mem_dropArgs env _ p] at hp
            exact hp
          · rw [he] at hb
            simp at hb
            exact hrmd p b hb
        · refine ⟨fun p hp => ?_, fun p b hb => ?_⟩
          · rw [he] at hp
            simp [createDir_not_mem_dropArgs env _ p] at hp
            exact hp
          · rw [he] at hb
            simp at hb
            exact hrmd p b hb
        · rcases hrest with ⟨m, he⟩ | ⟨m, he⟩ | ⟨mtr, he⟩ <;>
            refine ⟨fun p hp => ?_, fun p b hb => ?_⟩ <;>
            [skip; skip; skip; skip; skip; skip]
          · rw [he] at hp
            simp [createDir_not_mem_dropArgs env _ p] at hp
            exact hp
          · rw [he] at hb
            simp at hb
            exact hrmd p b hb
          · rw [he] at hp
            simp [createDir_not_mem_dropArgs env _ p] at hp
            exact hp
          · rw [he] at hb
            simp at hb
            exact hrmd p b hb
          · rw [he] at hp
            simp [createDir_not_mem_dropArgs env _ p] at hp
            exact hp
          · rw [he] at hb
            simp at hb
            exact hrmd p b hb
  exact ⟨key.1, key.2,
    fun h => hdne (key.1 d h).symm,
    fun b h => hdne (key.2 d b h).symm⟩

/-- Claim C4, witness: the frame theorem applied to the concrete run with
explicit target directory "/cg". -/
theorem C4_explicit_dir_frame_witness :
    (args0.cg_dir = some "/cg" ∧ args0.temp_cg_dir = none ∧
      args0.leaf_dir = none ∧ args0.command ≠ []) ∧
    ((∀ p, Event.createDir p ∈ (runMain env0 args0).1 → p = "/cg" ++ "/leaf") ∧
     (∀ p b, Event.removeDir p b ∈ (runMain env0 args0).1 → p = "/cg" ++ "/leaf") ∧
     Event.createDir "/cg" ∉ (runMain env0 args0).1 ∧
     ∀ b, Event.removeDir "/cg" b ∉ (runMain env0 args0).1) :=
  ⟨⟨rfl, rfl, rfl, by decide⟩,
   C4_explicit_dir_frame env0 args0 "/cg" rfl rfl rfl (by decide)⟩

/-! ### Claim C5 -/

/-- Environment for the C5 counterexample: both controller files are
readable; the controllers file reads "cpu memory\n", which lists the
memory controller (as its final whitespace-separated token) but contains
neither "memory " nor "memory\0". -/
def envC5 : Env := { env0 with
  readFile := fun p =>
    if p = "/m/cgroup.controllers" then some "cpu memory\n"
    else if p = "/m/cgroup.subtree_control" then some "memory "
    else none }

/-- Claim C5, counterexample to the claimed equivalence: with both files
readable and the controllers file listing the memory controller ("memory"
occurs as a token), the validator nevertheless fails, because the code
only checks for the substrings "memory " and "memory\0" (main.rs lines
71-73) and here the final token is followed by a newline.  Hence "fails
iff unreadable or does not list the memory controller" is false. -/
theorem C5_counterexample :
    envC5.readFile "/m/cgroup.controllers" = some "cpu memory\n" ∧
    envC5.readFile "/m/cgroup.subtree_control" = some "memory " ∧
    listsMemoryToken "cpu memory\n" = true ∧
    listsMemoryToken "memory " = true ∧
    (∃ m aa, (check_cgroupfs envC5 args0).2 = .error (.panicked m, aa)) :=
  ⟨rfl, rfl, by decide, by decide,
   ⟨"Cgroup memory controller missing: " ++ ("/m" ++ "/cgroup.controllers"),
    args0, rfl⟩⟩

/-- Claim C5 (amended): the filesystem validator emits no events (no side
effects); its result depends only on the first 1024 bytes of each of the
two controller files (bounded read): any environment agreeing on those
prefixes yields the identical result; and it fails if and only if either
file is unreadable or its first 1024 bytes contain neither the substring
"memory " nor the substring "memory\0" (the code's pattern for the memory
controller being listed, captured by `fileListsMemory`). -/
theorem C5_validator_bounded (env env2 : Env) (a : Args)
    (h1 : (env.readFile (a.cg_fs_dir ++ "/cgroup.controllers")).map
        (fun c => strTake c 1024)
      = (env2.readFile (a.cg_fs_dir ++ "/cgroup.controllers")).map
        (fun c => strTake c 1024))
    (h2 : (env.readFile (a.cg_fs_dir ++ "/cgroup.subtree_control")).map
        (fun c => strTake c 1024)
      = (env2.readFile (a.cg_fs_dir ++ "/cgroup.subtree_control")).map
        (fun c => strTake c 1024)) :
    (check_cgroupfs env a).1 = [] ∧
    check_cgroupfs env2 a = check_cgroupfs env a ∧
    ((∃ m aa, (check_cgroupfs env a).2 = .error (.panicked m, aa)) ↔
      (fileListsMemory env (a.cg_fs_dir ++ "/cgroup.controllers") = false ∨
       fileListsMemory env (a.cg_fs_dir ++ "/cgroup.subtree_control") = false)) := by
  unfold check_cgroupfs fileListsMemory
  dsimp only
  rcases hr1 : env.readFile (a.cg_fs_dir ++ "/cgroup.controllers") with _ | c1 <;>
    rcases hr1b : env2.readFile (a.cg_fs_dir ++ "/cgroup.controllers") with _ | c1b <;>
    rw [hr1, hr1b] at h1 <;> simp only [Option.map_none, Option.map_some,
      Option.map, reduceCtorEq] at h1
  · -- first file unreadable in both environments
    exact ⟨rfl, rfl, by simp⟩
  · -- first file readable in both, equal 1024-byte prefixes
    replace h1 : strTake c1 1024 = strTake c1b 1024 := by simpa using h1
    dsimp only
    rw [← h1]
    rcases hm1 : memListed (strTake c1 1024) with _ | _
    · -- memory pattern missing from the first file
      simp only [Bool.false_eq_true, if_false]
      refine ⟨by simp, by simp, ?_⟩
      constructor
      · intro _; exact Or.inl (by simp)
      · intro _; exact ⟨_, a, rfl⟩
    · simp only [if_true]
      rcases hr2 : env.readFile (a.cg_fs_dir ++ "/cgroup.subtree_control") with _ | c2 <;>
        rcases hr2b : env2.readFile (a.cg_fs_dir ++ "/cgroup.subtree_control") with _ | c2b <;>
        rw [hr2, hr2b] at h2 <;> simp only [Option.map_none, Option.map_some,
          Option.map, reduceCtorEq] at h2
      · exact ⟨rfl, rfl, by simp [hm1]⟩
      · replace h2 : strTake c2 1024 = strTake c2b 1024 := by simpa using h2
        dsimp only
        rw [← h2]
        rcases hm2 : memListed (strTake c2 1024) with _ | _
        · simp only [Bool.false_eq_true, if_false]
          refine ⟨by simp, by simp, ?_⟩
          constructor
          · intro _; exact Or.inr (by simp)
          · intro _; exact ⟨_, a, rfl⟩
        · simp only [if_true]
          refine ⟨by simp, by simp, ?_⟩
          constructor
          · rintro ⟨m, aa, hcontra⟩; simp at hcontra
          · rintro (hcontra | hcontra) <;> simp [hm1, hm2] at hcontra

/-- Claim C5, witness: the amended validator theorem applied to the
cooperative environment (twice, with trivially agreeing prefixes). -/
theorem C5_validator_bounded_witness :
    (check_cgroupfs env0 args0).1 = [] ∧
    check_cgroupfs env0 args0 = check_cgroupfs env0 args0 ∧
    ((∃ m aa, (check_cgroupfs env0 args0).2 = .error (.panicked m, aa)) ↔
      (fileListsMemory env0 (args0.cg_fs_dir ++ "/cgroup.controllers") = false ∨
       fileListsMemory env0 (args0.cg_fs_dir ++ "/cgroup.subtree_control") = false)) :=
  C5_validator_bounded env0 env0 args0 rfl rfl

/-! ### Claim C6 -/

/-- Claim C6: when no explicit target directory is given, the membership
record read from /proc/self/cgroup contains a slash but no ".service"
pattern (no discoverable session scope), then: with `-Z` set the run ends
with `exit(119)` having performed no side effect at all — in particular
no process is ever created; without `-Z`, if the exec of systemd-run
itself fails, the run ends with `exit(118)`; and on all of these paths no
child process is spawned. -/
theorem C6_no_scope_exit_codes (env : Env) (a : Args) (c : String) (i : Nat)
    (hfs : check_cgroupfs env a = ([], Except.ok a))
    (hcg : a.cg_dir = none)
    (hrd : env.readFile "/proc/self/cgroup" = some c)
    (hslash : findSub ['/'] (strTake c 1024).toList = some i)
    (hsvc : findSub ".service".toList (strTake c 1024).toList = none) :
    (a.disable_systemd_run = true →
       runMain env a = ([], Outcome.exited 119)) ∧
    (a.disable_systemd_run = false → env.systemdExecOk = false →
       runMain env a = ([], Outcome.exited 118)) ∧
    Event.spawnChild ∉ (runMain env a).1 := by
  have hcd : check_cgroup_dir env a =
      ([], .error (reexec_with_systemd_run env a, a)) := by
    simp only [check_cgroup_dir, hcg, hrd, hslash, hsvc]
  refine ⟨?_, ?_, ?_⟩
  · intro hz
    have hre : reexec_with_systemd_run env a = .exited 119 := by
      simp [reexec_with_systemd_run, hz]
    rw [runMain_ok env a a [] hfs, runLocate_err env a [] [] _ hcd, hre]
    simp [abortEvents, abortOutcome]
  · intro hz hsys
    have hre : reexec_with_systemd_run env a = .exited 118 := by
      simp [reexec_with_systemd_run, hz, hsys]
    rw [runMain_ok env a a [] hfs, runLocate_err env a [] [] _ hcd, hre]
    simp [abortEvents, abortOutcome]
  · have htr : (runMain env a).1 = [] := by
      rw [runMain_ok env a a [] hfs, runLocate_err env a [] [] _ hcd]
      unfold reexec_with_systemd_run
      split_ifs <;> simp [abortEvents]
    rw [htr]
    simp

/-- Environment for the C6 witness: no usable scope in the membership
record (no ".service"), fallback disabled by the arguments below. -/
def envC6 : Env := { env0 with
  readFile := fun p =>
    if p = "/m/cgroup.controllers" then some "memory "
    else if p = "/m/cgroup.subtree_control" then some "memory "
    else if p = "/proc/self/cgroup" then some "0::/foo"
    else none }

/-- Arguments for the C6 witness: no `-c`, `-Z` set. -/
def argsC6 : Args := { args0 with cg_dir := none, disable_systemd_run := true }

/-- Claim C6, witness: the exit-code theorem applied to a concrete run
with no discoverable session scope and the fallback disabled. -/
theorem C6_no_scope_exit_codes_witness :
    (check_cgroupfs envC6 argsC6 = ([], Except.ok argsC6) ∧
     argsC6.cg_dir = none ∧
     envC6.readFile "/proc/self/cgroup" = some "0::/foo" ∧
     findSub ['/'] (strTake "0::/foo" 1024).toList = some 3 ∧
     findSub ".service".toList (strTake "0::/foo" 1024).toList = none) ∧
    ((argsC6.disable_systemd_run = true →
        runMain envC6 argsC6 = ([], Outcome.exited 119)) ∧
     (argsC6.disable_systemd_run = false → envC6.systemdExecOk = false →
        runMain envC6 argsC6 = ([], Outcome.exited 118)) ∧
     Event.spawnChild ∉ (runMain envC6 argsC6).1) :=
  ⟨⟨rfl, rfl, rfl, by decide, by decide⟩,
   C6_no_scope_exit_codes envC6 argsC6 "0::/foo" 3 rfl rfl rfl
     (by decide) (by decide)⟩

/-! ### Claim C8 -/

/-- Claim C8: for `-c` pointing at a nonexistent path, or at a path that
is not a directory, the run panics with a configuration error while its
trace is empty: no control-group directory has been created and no
process has been spawned. -/
theorem C8_invalid_explicit_dir (env : Env) (a : Args) (d : String)
    (hfs : check_cgroupfs env a = ([], Except.ok a))
    (hd : a.cg_dir = some d)
    (ht : a.temp_cg_dir = none) (hl : a.leaf_dir = none)
    (hbad : env.metaExists d = false ∨ env.metaIsDir d = false) :
    (∃ m, runMain env a = ([], Outcome.panicked m)) ∧
    (∀ p, Event.createDir p ∉ (runMain env a).1) ∧
    Event.spawnChild ∉ (runMain env a).1 := by
  have hcd : ∃ m, check_cgroup_dir env a = ([], .error (.panicked m, a)) := by
    simp only [check_cgroup_dir, hd]
    rcases hbad with hb | hb
    · rw [hb]
      exact ⟨"Directory " ++ d ++ " does not exist.", by simp⟩
    · rcases hme : env.metaExists d with _ | _
      · exact ⟨"Directory " ++ d ++ " does not exist.", by simp⟩
      · rw [hb]
        exact ⟨"Path " ++ d ++ " is not a directory.", by simp⟩
  obtain ⟨m, hcd⟩ := hcd
  have hrun : runMain env a = ([], Outcome.panicked m) := by
    rw [runMain_ok env a a [] hfs, runLocate_err env a [] [] _ hcd]
    simp [abortEvents, abortOutcome, dropArgs_nil env a hl ht]
  refine ⟨⟨m, hrun⟩, ?_, ?_⟩
  · intro p
    rw [hrun]
    simp
  · rw [hrun]
    simp

/-- Claim C8, witness: the theorem applied to a concrete run whose
explicit target directory does not exist. -/
theorem C8_invalid_explicit_dir_witness :
    (check_cgroupfs { env0 with metaExists := fun _ => false } args0 =
       ([], Except.ok args0) ∧
     args0.cg_dir = some "/cg" ∧ args0.temp_cg_dir = none ∧
     args0.leaf_dir = none ∧
     ({ env0 with metaExists := fun _ => false } : Env).metaExists "/cg" = false) ∧
    ((∃ m, runMain { env0 with metaExists := fun _ => false } args0 =
        ([], Outcome.panicked m)) ∧
     (∀ p, Event.createDir p ∉
        (runMain { env0 with metaExists := fun _ => false } args0).1) ∧
     Event.spawnChild ∉
        (runMain { env0 with metaExists := fun _ => false } args0).1) :=
  ⟨⟨rfl, rfl, rfl, rfl, rfl⟩,
   C8_invalid_explicit_dir { env0 with metaExists := fun _ => false } args0 "/cg"
     rfl rfl rfl rfl (Or.inl rfl)⟩

/-! ### Claim C7 -/

/-- The environment with the two fields that never influence the final
outcome (only trace events) replaced: the exit status of the target
command and the success of directory removal. -/
def envSwap (env : Env) (s : Int) (f : String → Bool) : Env :=
  { env with childStatus := s, removeDirOk := f }

theorem check_cgroupfs_envSwap (env : Env) (s : Int) (f : String → Bool)
    (a : Args) : check_cgroupfs (envSwap env s f) a = check_cgroupfs env a := rfl

theorem check_cgroup_dir_envSwap (env : Env) (s : Int) (f : String → Bool)
    (a : Args) : check_cgroup_dir (envSwap env s f) a = check_cgroup_dir env a := rfl

theorem setup_cgroup_envSwap (env : Env) (s : Int) (f : String → Bool)
    (a : Args) : setup_cgroup (envSwap env s f) a = setup_cgroup env a := rfl

theorem execute_snd_envSwap (env : Env) (s : Int) (f : String → Bool) (a : Args) :
    (execute (envSwap env s f) a).2 = (execute env a).2 := by
  unfold execute execute_in
  rcases hl : a.leaf_dir with _ | l
  · rfl
  · dsimp only [envSwap]
    repeat' split
    all_goals rfl

/-- The final outcome of a run never depends on the exit status the
child reports, nor on whether the cleanup removals succeed. -/
theorem runMain_snd_envSwap (env : Env) (s : Int) (f : String → Bool) (a : Args) :
    (runMain (envSwap env s f) a).2 = (runMain env a).2 := by
  unfold runMain
  rw [check_cgroupfs_envSwap]
  rcases h1 : check_cgroupfs env a with ⟨ev, r⟩
  rcases r with ab | a1
  · rfl
  · show (runLocate (envSwap env s f) ev a1).2 = (runLocate env ev a1).2
    unfold runLocate
    rw [check_cgroup_dir_envSwap]
    rcases h2 : check_cgroup_dir env a1 with ⟨ev2, r2⟩
    rcases r2 with ab | a2
    · rfl
    · show (runSetup (envSwap env s f) (ev ++ ev2) a2).2 =
        (runSetup env (ev ++ ev2) a2).2
      unfold runSetup
      rw [setup_cgroup_envSwap]
      rcases h3 : setup_cgroup env a2 with ⟨ev3, r3⟩
      rcases r3 with ab | a3
      · rfl
      · show (runExec (envSwap env s f) (ev ++ ev2 ++ ev3) a3).2 =
          (runExec env (ev ++ ev2 ++ ev3) a3).2
        unfold runExec
        have h4 := execute_snd_envSwap env s f a3
        rcases h5 : execute env a3 with ⟨ev4, r4⟩
        rcases h6 : execute (envSwap env s f) a3 with ⟨ev4b, r4b⟩
        rw [h5, h6] at h4
        simp at h4
        subst h4
        rcases r4b with ab | mm <;> rfl

theorem countRemoveAttempts_eq_zero (pre : List Event) (p : String)
    (hpre : ∀ q b, Event.removeDir q b ∉ pre) :
    countRemoveAttempts pre p = 0 := by
  unfold countRemoveAttempts
  rw [List.countP_eq_zero]
  intro e he
  cases e
  case removeDir q b => exact absurd he (hpre q b)
  all_goals simp

/-- Counting removal attempts in a trace of the canonical shape
`pre ++ dropArgs ++ post` where neither `pre` nor `post` contains a
removal. -/
theorem countRemoveAttempts_shape (env : Env) (X : Args) (pre post : List Event)
    (hpre : ∀ q b, Event.removeDir q b ∉ pre)
    (hpost : ∀ q b, Event.removeDir q b ∉ post) (p : String) :
    countRemoveAttempts (pre ++ dropArgs env X ++ post) p =
      (if X.leaf_dir = some p then 1 else 0) +
      (if X.temp_cg_dir = some p then 1 else 0) := by
  rw [countRemoveAttempts_append, countRemoveAttempts_append, count_dropArgs,
    countRemoveAttempts_eq_zero pre p hpre, countRemoveAttempts_eq_zero post p hpost]
  omega

/-- In a trace of the canonical shape, a failed removal of `p` is
accompanied by a cleanup-failure report for `p`. -/
theorem report_in_shape (env : Env) (X : Args) (pre post : List Event) (p : String)
    (hpre : ∀ q b, Event.removeDir q b ∉ pre)
    (hpost : ∀ q b, Event.removeDir q b ∉ post)
    (hmem : Event.removeDir p false ∈ pre ++ dropArgs env X ++ post) :
    Event.reportCleanupFailure p ∈ pre ++ dropArgs env X ++ post := by
  have hdr : Event.removeDir p false ∈ dropArgs env X := by
    rcases List.mem_append.mp hmem with h | h
    · rcases List.mem_append.mp h with h2 | h2
      · exact absurd h2 (hpre p false)
      · exact h2
    · exact absurd h (hpost p false)
  rw [removeDir_mem_dropArgs] at hdr
  have hrep : Event.reportCleanupFailure p ∈ dropArgs env X :=
    (report_mem_dropArgs env X p).mpr ⟨hdr.1, hdr.2.symm⟩
  exact List.mem_append.mpr (Or.inl (List.mem_append.mpr (Or.inr hrep)))

theorem count_one_of_tracked (env : Env) (X : Args) (pre post : List Event)
    (hpre : ∀ q b, Event.removeDir q b ∉ pre)
    (hpost : ∀ q b, Event.removeDir q b ∉ post)
    (p : String)
    (htracked : (X.leaf_dir = some p ∧ X.temp_cg_dir ≠ some p) ∨
                (X.temp_cg_dir = some p ∧ X.leaf_dir ≠ some p)) :
    countRemoveAttempts (pre ++ dropArgs env X ++ post) p = 1 := by
  rw [countRemoveAttempts_shape env X pre post hpre hpost p]
  rcases htracked with ⟨h1, h2⟩ | ⟨h1, h2⟩ <;> simp [h1, h2]

/-- Shared exactly-once/report argument for every run shape
`(loc ++ mid) ++ dropArgs ++ post`. -/
theorem C7_shape_processor (env : Env) (a aT X : Args)
    (loc mid post : List Event) (cg : String)
    (hXleaf : aT.leaf_dir = none)
    (hXtemp : (aT.temp_cg_dir = some cg ∧ loc = [Event.createDir cg]) ∨
              (aT.temp_cg_dir = none ∧ loc = []))
    (hXdef : X = aT ∨ X = { aT with leaf_dir := some (cg ++ "/leaf") })
    (hmidX : X = aT → mid = [])
    (hmidc : ∀ q, Event.createDir q ∈ mid → q = cg ++ "/leaf")
    (hmidr : ∀ q b, Event.removeDir q b ∉ mid)
    (hpostr : ∀ q b, Event.removeDir q b ∉ post)
    (hpostc : ∀ q, Event.createDir q ∉ post)
    (htr : (runMain env a).1 = (loc ++ mid) ++ dropArgs env X ++ post) :
    (∀ p, Event.createDir p ∈ (runMain env a).1 →
       countRemoveAttempts (runMain env a).1 p = 1) ∧
    (∀ p, Event.removeDir p false ∈ (runMain env a).1 →
       Event.reportCleanupFailure p ∈ (runMain env a).1) := by
  have hne : ∀ x : String, x ++ "/leaf" ≠ x :=
    fun x => append_ne_self x "/leaf" (by decide)
  have hlocnr : ∀ q b, Event.removeDir q b ∉ loc := by
    rcases hXtemp with ⟨_, h0⟩ | ⟨_, h0⟩ <;> rw [h0] <;> intro q b <;> simp
  have hpre : ∀ q b, Event.removeDir q b ∉ loc ++ mid := by
    intro q b h
    rcases List.mem_append.mp h with h2 | h2
    · exact hlocnr q b h2
    · exact hmidr q b h2
  constructor
  · intro p hp
    rw [htr] at hp ⊢
    -- locate the creation of p
    have hpc : (p = cg ++ "/leaf" ∧ Event.createDir p ∈ mid) ∨
        aT.temp_cg_dir = some p := by
      rcases List.mem_append.mp hp with h2 | h2
      · rcases List.mem_append.mp h2 with h3 | h3
        · rcases List.mem_append.mp h3 with h4 | h4
          · rcases hXtemp with ⟨htc, h0⟩ | ⟨_, h0⟩ <;> rw [h0] at h4 <;> simp at h4
            right; rw [htc, h4]
          · exact Or.inl ⟨hmidc p h4, h4⟩
        · exact absurd h3 (createDir_not_mem_dropArgs env X p)
      · exact absurd h2 (hpostc p)
    refine count_one_of_tracked env X (loc ++ mid) post hpre hpostr p ?_
    rcases hpc with ⟨h4, hmem⟩ | h4
    · -- the leaf: X must be the post-creation state
      rcases hXdef with hX | hX
      · rw [hmidX hX] at hmem; simp at hmem
      · left
        subst hX
        constructor
        · simp [h4]
        · rcases hXtemp with ⟨htc, _⟩ | ⟨htc, _⟩ <;> simp [htc, h4]
          intro hcontra
          exact hne cg hcontra.symm
    · -- the ephemeral dir
      right
      rcases hXdef with hX | hX <;> subst hX
      · refine ⟨by simpa using h4, ?_⟩
        simp [hXleaf]
      · refine ⟨by simpa using h4, ?_⟩
        rcases hXtemp with ⟨htc, _⟩ | ⟨htc, _⟩
        · rw [htc] at h4
          simp only [Option.some.injEq] at h4
          simp [← h4]
          intro hcontra
          exact hne cg hcontra
        · rw [htc] at h4; simp at h4
  · intro p hp
    rw [htr] at hp ⊢
    exact report_in_shape env X (loc ++ mid) post p hpre hpostr hp

/-- Claim C7: on every exit path, each directory this run created — the
leaf, and the ephemeral target if one was created — receives exactly one
removal attempt in the whole trace; the final outcome (success, exit
code, panic message) never depends on whether those removals succeed, so
a cleanup failure can never mask or replace the primary failure cause;
and every failed removal is reported, never escalated. -/
theorem C7_cleanup_exactly_once (env : Env) (a : Args)
    (ht : a.temp_cg_dir = none) (hl : a.leaf_dir = none) (hc : a.command ≠ []) :
    (∀ p, Event.createDir p ∈ (runMain env a).1 →
       countRemoveAttempts (runMain env a).1 p = 1) ∧
    (∀ f, (runMain { env with removeDirOk := f } a).2 = (runMain env a).2) ∧
    (∀ p, Event.removeDir p false ∈ (runMain env a).1 →
       Event.reportCleanupFailure p ∈ (runMain env a).1) := by
  have key :
      (∀ p, Event.createDir p ∈ (runMain env a).1 →
         countRemoveAttempts (runMain env a).1 p = 1) ∧
      (∀ p, Event.removeDir p false ∈ (runMain env a).1 →
         Event.reportCleanupFailure p ∈ (runMain env a).1) := by
    rcases runMain_char env a ht hl hc with ⟨htr, _⟩ | ⟨loc, aT, cg, hloc, hshapes⟩
    · rw [htr]
      exact ⟨fun p hp => absurd hp (by simp), fun p hp => absurd hp (by simp)⟩
    · have hXleaf : aT.leaf_dir = none := by
        rcases hloc with ⟨_, haT, _⟩ | ⟨_, haT, _⟩ <;> rw [haT] <;> exact hl
      have hXtemp : (aT.temp_cg_dir = some cg ∧ loc = [Event.createDir cg]) ∨
          (aT.temp_cg_dir = none ∧ loc = []) := by
        rcases hloc with ⟨h0, haT, _⟩ | ⟨h0, haT, _⟩
        · rw [haT]; exact Or.inr ⟨ht, h0⟩
        · rw [haT]; exact Or.inl ⟨rfl, h0⟩
      rcases hshapes with ⟨m, he⟩ | ⟨m, he⟩ | ⟨m, he⟩ | ⟨s, _, hrest⟩
      · exact C7_shape_processor env a aT aT loc [] [] cg hXleaf hXtemp
          (Or.inl rfl) (fun _ => rfl) (fun q hq => absurd hq (by simp))
          (fun q b => by simp) (fun q b => by simp) (fun q => by simp)
          (by rw [he]; try simp)
      · exact C7_shape_processor env a aT
          { aT with leaf_dir := some (cg ++ "/leaf") }
          loc [Event.createDir (cg ++ "/leaf")] [] cg hXleaf hXtemp
          (Or.inr rfl)
          (fun hX => absurd (congrArg Args.leaf_dir hX)
            (by simp [hXleaf]))
          (fun q hq => by simpa using hq)
          (fun q b => by simp) (fun q b => by simp) (fun q => by simp)
          (by rw [he]; try simp)
      · exact C7_shape_processor env a aT
          { aT with leaf_dir := some (cg ++ "/leaf") }
          loc [Event.createDir (cg ++ "/leaf"),
               Event.writeSubtreeControl (cg ++ "/cgroup.subtree_control")] [] cg
          hXleaf hXtemp (Or.inr rfl)
          (fun hX => absurd (congrArg Args.leaf_dir hX)
            (by simp [hXleaf]))
          (fun q hq => by
            rcases List.mem_cons.mp hq with h4 | h4
            · simpa using h4
            · simp at h4)
          (fun q b => by simp) (fun q b => by simp) (fun q => by simp)
          (by rw [he]; try simp)
      · rcases hrest with ⟨m, he⟩ | ⟨m, he⟩ | ⟨mtr, he⟩
        · exact C7_shape_processor env a aT
            { aT with leaf_dir := some (cg ++ "/leaf") }
            loc [Event.createDir (cg ++ "/leaf"),
                 Event.writeSubtreeControl (cg ++ "/cgroup.subtree_control"),
                 Event.spawnChild, Event.childExit s] [] cg
            hXleaf hXtemp (Or.inr rfl)
            (fun hX => absurd (congrArg Args.leaf_dir hX)
              (by simp [hXleaf]))
            (fun q hq => by
              rcases List.mem_cons.mp hq with h4 | h4
              · simpa using h4
              · simp at h4)
            (fun q b => by simp) (fun q b => by simp) (fun q => by simp)
            (by rw [he]; try simp)
        · exact C7_shape_processor env a aT
            { aT with leaf_dir := some (cg ++ "/leaf") }
            loc [Event.createDir (cg ++ "/leaf"),
                 Event.writeSubtreeControl (cg ++ "/cgroup.subtree_control"),
                 Event.spawnChild, Event.childExit s, Event.waitChild] [] cg
            hXleaf hXtemp (Or.inr rfl)
            (fun hX => absurd (congrArg Args.leaf_dir hX)
              (by simp [hXleaf]))
            (fun q hq => by
              rcases List.mem_cons.mp hq with h4 | h4
              · simpa using h4
              · simp at h4)
            (fun q b => by simp) (fun q b => by simp) (fun q => by simp)
            (by rw [he]; try simp)
        · exact C7_shape_processor env a aT
            { aT with leaf_dir := some (cg ++ "/leaf") }
            loc [Event.createDir (cg ++ "/leaf"),
                 Event.writeSubtreeControl (cg ++ "/cgroup.subtree_control"),
                 Event.spawnChild, Event.childExit s, Event.waitChild]
            [Event.printResult] cg
            hXleaf hXtemp (Or.inr rfl)
            (fun hX => absurd (congrArg Args.leaf_dir hX)
              (by simp [hXleaf]))
            (fun q hq => by
              rcases List.mem_cons.mp hq with h4 | h4
              · simpa using h4
              · simp at h4)
            (fun q b => by simp) (fun q b => by simp) (fun q => by simp)
            (by rw [he]; try simp)
  exact ⟨key.1, fun f => runMain_snd_envSwap env env.childStatus f a, key.2⟩

/-- Claim C7, witness: the exactly-once theorem applied to the concrete
successful run (the single created directory, the leaf, is removed exactly
once and the outcome is unchanged under any removal-result function). -/
theorem C7_cleanup_exactly_once_witness :
    (args0.temp_cg_dir = none ∧ args0.leaf_dir = none ∧ args0.command ≠ []) ∧
    ((∀ p, Event.createDir p ∈ (runMain env0 args0).1 →
        countRemoveAttempts (runMain env0 args0).1 p = 1) ∧
     (∀ f, (runMain { env0 with removeDirOk := f } args0).2 =
        (runMain env0 args0).2) ∧
     (∀ p, Event.removeDir p false ∈ (runMain env0 args0).1 →
        Event.reportCleanupFailure p ∈ (runMain env0 args0).1)) :=
  ⟨⟨rfl, rfl, by decide⟩,
   C7_cleanup_exactly_once env0 args0 rfl rfl (by decide)⟩



/-! ### Claim C9 -/

/-- Setting the two output-format flags `-t` and `-d`, which the program
parses into `Args` but never reads. -/
def setFmt (mr : Bool) (d : Char) (x : Args) : Args :=
  { x with machine_readable := mr, delim := d }

theorem setFmt_cg_fs_dir (mr : Bool) (d : Char) (x : Args) :
    (setFmt mr d x).cg_fs_dir = x.cg_fs_dir := rfl

theorem setFmt_cg_dir (mr : Bool) (d : Char) (x : Args) :
    (setFmt mr d x).cg_dir = x.cg_dir := rfl

theorem setFmt_temp_cg_dir (mr : Bool) (d : Char) (x : Args) :
    (setFmt mr d x).temp_cg_dir = x.temp_cg_dir := rfl

theorem setFmt_leaf_dir (mr : Bool) (d : Char) (x : Args) :
    (setFmt mr d x).leaf_dir = x.leaf_dir := rfl

theorem setFmt_disable (mr : Bool) (d : Char) (x : Args) :
    (setFmt mr d x).disable_systemd_run = x.disable_systemd_run := rfl

theorem setFmt_command (mr : Bool) (d : Char) (x : Args) :
    (setFmt mr d x).command = x.command := rfl

/-- Map over the `Args` carried in an `Args`-valued phase result. -/
def mapArgsE (g : Args → Args) :
    Except (Abort × Args) Args → Except (Abort × Args) Args
  | .ok x => .ok (g x)
  | .error (ab, x) => .error (ab, g x)

/-- Map over the `Args` carried in a `Metrics`-valued phase result. -/
def mapArgsM (g : Args → Args) :
    Except (Abort × Args) Metrics → Except (Abort × Args) Metrics
  | .ok m => .ok m
  | .error (ab, x) => .error (ab, g x)

theorem dropArgs_setFmt (env : Env) (mr : Bool) (d : Char) (x : Args) :
    dropArgs env (setFmt mr d x) = dropArgs env x := rfl

theorem childEvents_setFmt (env : Env) (mr : Bool) (d : Char) (x : Args) :
    childEvents env (setFmt mr d x) = childEvents env x := rfl

theorem abortEvents_setFmt (env : Env) (ab : Abort) (mr : Bool) (d : Char)
    (x : Args) : abortEvents env (ab, setFmt mr d x) = abortEvents env (ab, x) := by
  cases ab <;> simp [abortEvents, dropArgs_setFmt]

theorem check_cgroupfs_setFmt (env : Env) (mr : Bool) (d : Char) (a : Args) :
    check_cgroupfs env (setFmt mr d a) =
      ((check_cgroupfs env a).1, mapArgsE (setFmt mr d) (check_cgroupfs env a).2) := by
  unfold check_cgroupfs
  simp only [setFmt_cg_fs_dir]
  rcases h1 : env.readFile (a.cg_fs_dir ++ "/cgroup.controllers") with _ | c1
  · rfl
  · dsimp only
    rcases hm1 : memListed (strTake c1 1024) with _ | _ <;>
      simp only [Bool.false_eq_true, if_false, if_true]
    · rfl
    · rcases h2 : env.readFile (a.cg_fs_dir ++ "/cgroup.subtree_control") with _ | c2
      · rfl
      · dsimp only
        rcases hm2 : memListed (strTake c2 1024) with _ | _ <;>
          simp only [Bool.false_eq_true, if_false, if_true] <;> rfl

theorem check_cgroup_dir_setFmt (env : Env) (mr : Bool) (d : Char) (a : Args) :
    check_cgroup_dir env (setFmt mr d a) =
      ((check_cgroup_dir env a).1, mapArgsE (setFmt mr d) (check_cgroup_dir env a).2) := by
  unfold check_cgroup_dir
  simp only [setFmt_cg_dir, setFmt_cg_fs_dir]
  rcases hd : a.cg_dir with _ | dd
  · dsimp only
    rcases h1 : env.readFile "/proc/self/cgroup" with _ | c
    · rfl
    · dsimp only
      rcases h2 : findSub ['/'] (strTake c 1024).toList with _ | i
      · rfl
      · dsimp only
        rcases h3 : findSub ".service".toList (strTake c 1024).toList with _ | e
        · dsimp only
          unfold reexec_with_systemd_run
          simp only [setFmt_disable]
          split_ifs <;> rfl
        · dsimp only
          split_ifs <;> rfl
  · dsimp only
    split_ifs <;> rfl

theorem setup_cgroup_in_setFmt (env : Env) (mr : Bool) (d : Char) (a : Args)
    (cg : String) :
    setup_cgroup_in env (setFmt mr d a) cg =
      ((setup_cgroup_in env a cg).1,
       mapArgsE (setFmt mr d) (setup_cgroup_in env a cg).2) := by
  unfold setup_cgroup_in
  dsimp only
  split_ifs <;> rfl

theorem setup_cgroup_setFmt (env : Env) (mr : Bool) (d : Char) (a : Args) :
    setup_cgroup env (setFmt mr d a) =
      ((setup_cgroup env a).1, mapArgsE (setFmt mr d) (setup_cgroup env a).2) := by
  unfold setup_cgroup
  simp only [setFmt_temp_cg_dir, setFmt_cg_dir]
  rcases ht : a.temp_cg_dir with _ | t
  · rcases hd : a.cg_dir with _ | dd
    · rfl
    · exact setup_cgroup_in_setFmt env mr d a dd
  · exact setup_cgroup_in_setFmt env mr d a t

theorem execute_setFmt (env : Env) (mr : Bool) (d : Char) (a : Args) :
    execute env (setFmt mr d a) =
      ((execute env a).1, mapArgsM (setFmt mr d) (execute env a).2) := by
  unfold execute execute_in
  simp only [setFmt_leaf_dir]
  rcases hl : a.leaf_dir with _ | l
  · rfl
  · dsimp only
    simp only [childEvents_setFmt, dropArgs_setFmt]
    repeat' split
    all_goals rfl

theorem runExec_setFmt (env : Env) (pre : List Event) (mr : Bool) (d : Char)
    (x : Args) : runExec env pre (setFmt mr d x) = runExec env pre x := by
  unfold runExec
  rw [execute_setFmt]
  rcases h : execute env x with ⟨ev4, r4⟩
  rcases r4 with ⟨ab, y⟩ | m
  · show (pre ++ ev4 ++ abortEvents env (ab, setFmt mr d y), abortOutcome ab) =
      (pre ++ ev4 ++ abortEvents env (ab, y), abortOutcome ab)
    rw [abortEvents_setFmt]
  · rfl

theorem runSetup_setFmt (env : Env) (pre : List Event) (mr : Bool) (d : Char)
    (x : Args) : runSetup env pre (setFmt mr d x) = runSetup env pre x := by
  unfold runSetup
  rw [setup_cgroup_setFmt]
  rcases h : setup_cgroup env x with ⟨ev3, r3⟩
  rcases r3 with ⟨ab, y⟩ | a3
  · show (pre ++ ev3 ++ abortEvents env (ab, setFmt mr d y), abortOutcome ab) =
      (pre ++ ev3 ++ abortEvents env (ab, y), abortOutcome ab)
    rw [abortEvents_setFmt]
  · exact runExec_setFmt env (pre ++ ev3) mr d a3

theorem runLocate_setFmt (env : Env) (pre : List Event) (mr : Bool) (d : Char)
    (x : Args) : runLocate env pre (setFmt mr d x) = runLocate env pre x := by
  unfold runLocate
  rw [check_cgroup_dir_setFmt]
  rcases h : check_cgroup_dir env x with ⟨ev2, r2⟩
  rcases r2 with ⟨ab, y⟩ | a2
  · show (pre ++ ev2 ++ abortEvents env (ab, setFmt mr d y), abortOutcome ab) =
      (pre ++ ev2 ++ abortEvents env (ab, y), abortOutcome ab)
    rw [abortEvents_setFmt]
  · exact runSetup_setFmt env (pre ++ ev2) mr d a2

/-- Claim C9: two runs that differ only in the machine-readable flag
(`-t`) and/or the delimiter (`-d`) are indistinguishable — identical
trace and identical outcome (including the printed metrics): the two
flags are parsed into `Args` but never read anywhere in the run. -/
theorem C9_format_flags_never_read (env : Env) (a : Args) (mr : Bool) (d : Char) :
    runMain env { a with machine_readable := mr, delim := d } = runMain env a := by
  show runMain env (setFmt mr d a) = runMain env a
  unfold runMain
  rw [check_cgroupfs_setFmt]
  rcases h1 : check_cgroupfs env a with ⟨ev, r⟩
  rcases r with ⟨ab, x⟩ | a1
  · show (ev ++ abortEvents env (ab, setFmt mr d x), abortOutcome ab) =
      (ev ++ abortEvents env (ab, x), abortOutcome ab)
    rw [abortEvents_setFmt]
  · exact runLocate_setFmt env ev mr d a1

/-! ### Claim C10 -/

/-- Whenever a run reports success, its trace contains the final print
of the metrics. -/
theorem success_print (env : Env) (a : Args) (m : Metrics)
    (h : (runMain env a).2 = Outcome.success m) :
    Event.printResult ∈ (runMain env a).1 := by
  rcases h1 : check_cgroupfs env a with ⟨ev, r⟩
  rcases r with ⟨ab, x⟩ | a1
  · rw [runMain_err env a ev (ab, x) h1] at h
    exfalso; cases ab <;> simp [abortOutcome] at h
  · rw [runMain_ok env a a1 ev h1] at h ⊢
    rcases h2 : check_cgroup_dir env a1 with ⟨ev2, r2⟩
    rcases r2 with ⟨ab, x⟩ | a2
    · rw [runLocate_err env a1 ev ev2 (ab, x) h2] at h
      exfalso; cases ab <;> simp [abortOutcome] at h
    · rw [runLocate_ok env a1 a2 ev ev2 h2] at h ⊢
      rcases h3 : setup_cgroup env a2 with ⟨ev3, r3⟩
      rcases r3 with ⟨ab, x⟩ | a3
      · rw [runSetup_err env a2 (ev ++ ev2) ev3 (ab, x) h3] at h
        exfalso; cases ab <;> simp [abortOutcome] at h
      · rw [runSetup_ok env a2 a3 (ev ++ ev2) ev3 h3] at h ⊢
        rcases h4 : execute env a3 with ⟨ev4, r4⟩
        rcases r4 with ⟨ab, x⟩ | mm
        · rw [runExec_err env a3 (ev ++ ev2 ++ ev3) ev4 (ab, x) h4] at h
          exfalso; cases ab <;> simp [abortOutcome] at h
        · rw [runExec_ok env a3 (ev ++ ev2 ++ ev3) ev4 mm h4]
          simp

/-- Claim C10: the final outcome of a run never depends on the exit
status the child reports to wait4 (the status is read but never
inspected), and whenever the run succeeds in collecting metrics the
parent prints them and its own exit status is 0 — the status of the
child is never propagated. -/
theorem C10_status_never_propagated (env : Env) (a : Args) (s : Int) :
    (runMain { env with childStatus := s } a).2 = (runMain env a).2 ∧
    ∀ m, (runMain env a).2 = Outcome.success m →
      exitCodeOf (runMain env a).2 = some 0 ∧
      Event.printResult ∈ (runMain env a).1 := by
  refine ⟨runMain_snd_envSwap env s env.removeDirOk a, ?_⟩
  intro m h
  refine ⟨by rw [h]; rfl, success_print env a m h⟩

/-- Claim C10, witness: the theorem applied to the concrete successful
run, with the child exit status changed to 5; the outcome is unchanged,
the metrics are printed, and the measuring process exits 0. -/
theorem C10_status_never_propagated_witness :
    ((runMain { env0 with childStatus := 5 } args0).2 = (runMain env0 args0).2 ∧
     ∀ m, (runMain env0 args0).2 = Outcome.success m →
       exitCodeOf (runMain env0 args0).2 = some 0 ∧
       Event.printResult ∈ (runMain env0 args0).1) ∧
    (runMain env0 args0).2 = Outcome.success ⟨0, 0, 0, 0, 42⟩ ∧
    (exitCodeOf (runMain env0 args0).2 = some 0 ∧
     Event.printResult ∈ (runMain env0 args0).1) :=
  ⟨C10_status_never_propagated env0 args0 5, by decide,
   (C10_status_never_propagated env0 args0 5).2 ⟨0, 0, 0, 0, 42⟩ (by decide)⟩

end Cgmemtime
